import Mathlib

/-!
# Verification of the babybloomberg strategy execution core

A shallow embedding, in Lean 4, of the trading-strategy backtester's core:
the `Strategy` base state machine (`src/strategy.py`), the threshold
strategies (`src/buy.py`, `src/sell.py`), the bounded strategy
(`src/bounded.py`), the multi-bounded manager (`src/multi_bounded.py`),
the composite (`src/multi_strategy.py`), the operation log
(`src/operations_manager.py`), the price-series lookups
(`src/stockframe_manager.py`) and the interval arithmetic
(`src/processing.py`).

Modelling conventions:
* Python floats are idealised as exact rationals (`ℚ`); `round(x, n)` is
  modelled as round-half-to-even on `ℚ` (`rnd`, `round2`, `round8`).
* ISO date strings (`"YYYY-MM-DD"`) are modelled by a `Date` structure;
  Python's lexicographic comparison of such strings coincides with the
  numeric comparison of the key `y*10000 + m*100 + d` used here.
* Python exceptions are modelled by the `Exc` type; operations that can
  raise return their resulting state together with an `Option Exc`
  (the state records the mutations performed before the raise).
-/

set_option allowUnsafeReducibility true
attribute [local semireducible] Rat.mul Rat.add Rat.sub Rat.inv Rat.ofScientific

/-- Python exception kinds that the embedded code can raise
(`src/exceptions.py`, plus built-in `ValueError` / `IndexError` /
`TypeError` / `AttributeError`). -/
inductive Exc where
  | notEnoughCash
  | notEnoughStock
  | stopChecking
  | tradeNotClosed
  | notValidInterval
  | valueError
  | indexError
  | typeError
  | attributeError
deriving DecidableEq, Repr

/-! ## Rounding

`rnd q` models Python's built-in `round` to an integer: round half to
even (Python's behaviour on floats, idealised over `ℚ`). -/

/-- Python `round(q)`: nearest integer, ties to even. -/
def rnd (q : ℚ) : ℤ :=
  if q - (⌊q⌋ : ℚ) < 1/2 then ⌊q⌋
  else if 1/2 < q - (⌊q⌋ : ℚ) then ⌊q⌋ + 1
  else if 2 ∣ ⌊q⌋ then ⌊q⌋ else ⌊q⌋ + 1

/-- Python `round(q, 2)`. -/
def round2 (q : ℚ) : ℚ := (rnd (q * 100) : ℚ) / 100

/-- Python `round(q, 8)`. -/
def round8 (q : ℚ) : ℚ := (rnd (q * 100000000) : ℚ) / 100000000

theorem rnd_intCast (z : ℤ) : rnd (z : ℚ) = z := by
  unfold rnd
  simp [Int.floor_intCast]

theorem floor_le_rnd (q : ℚ) : ⌊q⌋ ≤ rnd q := by
  unfold rnd
  split
  · exact le_refl _
  · split
    · exact le_of_lt (lt_add_one _)
    · split
      · exact le_refl _
      · exact le_of_lt (lt_add_one _)

theorem rnd_le_floor_add_one (q : ℚ) : rnd q ≤ ⌊q⌋ + 1 := by
  unfold rnd
  split
  · exact le_of_lt (lt_add_one _)
  · split
    · exact le_refl _
    · split
      · exact le_of_lt (lt_add_one _)
      · exact le_refl _

theorem rnd_nonneg {q : ℚ} (h : 0 ≤ q) : 0 ≤ rnd q :=
  le_trans (Int.le_floor.mpr (by exact_mod_cast h)) (floor_le_rnd q)

theorem round2_nonneg {q : ℚ} (h : 0 ≤ q) : 0 ≤ round2 q := by
  unfold round2
  have : (0 : ℚ) ≤ (rnd (q * 100) : ℚ) := by
    exact_mod_cast rnd_nonneg (by positivity)
  positivity

theorem round8_nonneg {q : ℚ} (h : 0 ≤ q) : 0 ≤ round8 q := by
  unfold round8
  have : (0 : ℚ) ≤ (rnd (q * 100000000) : ℚ) := by
    exact_mod_cast rnd_nonneg (by positivity)
  positivity

/-- Rational numbers that are whole multiples of one cent. -/
def CentMul (q : ℚ) : Prop := ∃ z : ℤ, q = (z : ℚ) / 100

theorem centMul_round2 (q : ℚ) : CentMul (round2 q) := ⟨rnd (q * 100), rfl⟩

theorem round2_cent {z : ℤ} : round2 ((z : ℚ) / 100) = (z : ℚ) / 100 := by
  unfold round2
  rw [div_mul_cancel₀ _ (by norm_num : (100 : ℚ) ≠ 0), rnd_intCast]

theorem centMul_add {a b : ℚ} (ha : CentMul a) (hb : CentMul b) :
    CentMul (a + b) := by
  obtain ⟨x, hx⟩ := ha
  obtain ⟨y, hy⟩ := hb
  exact ⟨x + y, by rw [hx, hy]; push_cast; ring⟩

theorem centMul_sub {a b : ℚ} (ha : CentMul a) (hb : CentMul b) :
    CentMul (a - b) := by
  obtain ⟨x, hx⟩ := ha
  obtain ⟨y, hy⟩ := hb
  exact ⟨x - y, by rw [hx, hy]; push_cast; ring⟩

theorem round2_centMul {q : ℚ} (h : CentMul q) : round2 q = q := by
  obtain ⟨z, hz⟩ := h
  rw [hz, round2_cent]

/-- A cent-multiple strictly greater than `-0.01` is nonnegative
(the slack in the cash-sufficiency check of `Strategy.buy`). -/
theorem centMul_pos_of_gt_neg_cent {q : ℚ} (h : CentMul q)
    (hgt : q > -(1/100)) : 0 ≤ q := by
  obtain ⟨z, hz⟩ := h
  subst hz
  have hz' : (-1 : ℚ) < (z : ℚ) := by
    have := (div_lt_div_iff_of_pos_right (by norm_num : (0:ℚ) < 100)).mp
      (by linarith : -(1:ℚ)/100 < (z:ℚ)/100)
    linarith
  have : (0 : ℤ) ≤ z := by exact_mod_cast (by exact_mod_cast hz' : (-1:ℤ) < z)
  positivity

/-! ## Calendar dates

`Date` models an ISO `"YYYY-MM-DD"` date; string comparison on
well-formed ISO strings equals comparison of `Date.key`. -/

structure Date where
  year : ℕ
  month : ℕ
  day : ℕ
deriving DecidableEq, Repr

/-- The numeric key whose order matches lexicographic order of the
corresponding ISO date strings. -/
def Date.key (d : Date) : ℕ := d.year * 10000 + d.month * 100 + d.day

/-- Gregorian leap-year test. -/
def isLeap (y : ℕ) : Bool := (y % 4 = 0 && y % 100 != 0) || y % 400 = 0

/-- Number of days in month `m` of year `y`. -/
def daysInMonth (y m : ℕ) : ℕ :=
  if m = 2 then (if isLeap y then 29 else 28)
  else if m = 4 || m = 6 || m = 9 || m = 11 then 30
  else 31

/-- The previous calendar day (used by `StockFrame.get_last_valid_price`
and by day/week interval subtraction). -/
def prevDay (d : Date) : Date :=
  if d.day > 1 then ⟨d.year, d.month, d.day - 1⟩
  else if d.month > 1 then ⟨d.year, d.month - 1, daysInMonth d.year (d.month - 1)⟩
  else ⟨d.year - 1, 12, 31⟩

/-- The next calendar day (subtracting a negative day interval adds). -/
def nextDay (d : Date) : Date :=
  if d.day < daysInMonth d.year d.month then ⟨d.year, d.month, d.day + 1⟩
  else if d.month < 12 then ⟨d.year, d.month + 1, 1⟩
  else ⟨d.year + 1, 1, 1⟩

/-- `fecha_dt - relativedelta(days=n)` (a negative `n` moves forward). -/
def shiftBackDays (d : Date) (n : ℤ) : Date :=
  if 0 ≤ n then prevDay^[n.toNat] d else nextDay^[(-n).toNat] d

/-- `fecha_dt - relativedelta(months=n)`: calendar month arithmetic with
the day-of-month clamped to the target month's length (dateutil's
rollover policy). -/
def subMonths (d : Date) (n : ℤ) : Date :=
  let total : ℤ := (d.year : ℤ) * 12 + ((d.month : ℤ) - 1) - n
  let y : ℕ := (Int.fdiv total 12).toNat
  let m : ℕ := (Int.fmod total 12).toNat + 1
  ⟨y, m, min d.day (daysInMonth y m)⟩

/-- `fecha_dt - relativedelta(years=n)`: the day is clamped
(Feb 29 minus a year gives Feb 28). -/
def subYears (d : Date) (n : ℤ) : Date :=
  let y : ℕ := ((d.year : ℤ) - n).toNat
  ⟨y, d.month, min d.day (daysInMonth y d.month)⟩

/-! ### ISO string parsing and formatting (`datetime.strptime` / `strftime`)

Core `String` functions use well-founded recursion that the kernel does
not unfold, so strings are processed through their underlying `List Char`,
which reduces. -/

/-- Split a character list at every occurrence of `sep`
(the pieces between separators, in order, empties kept). -/
def splitOnChar (sep : Char) : List Char → List Char → List (List Char)
  | [], acc => [acc.reverse]
  | c :: cs, acc =>
    if c = sep then acc.reverse :: splitOnChar sep cs []
    else splitOnChar sep cs (c :: acc)

/-- Parse a nonempty run of decimal digits. -/
def parseDigits : List Char → Option ℕ
  | [] => none
  | cs =>
    if cs.all (·.isDigit) then
      some (cs.foldl (fun acc c => acc * 10 + (c.toNat - 48)) 0)
    else none

/-- `datetime.strptime(s, "%Y-%m-%d")`, as far as the core uses it:
three dash-separated numeric fields with a basic range check.
Returns `none` where Python raises `ValueError`. -/
def parseDate (s : String) : Option Date :=
  match (splitOnChar '-' s.data []).map parseDigits with
  | [some y, some m, some d] =>
    if 1 ≤ m ∧ m ≤ 12 ∧ 1 ≤ d ∧ d ≤ daysInMonth y m then some ⟨y, m, d⟩
    else none
  | _ => none

/-- Decimal digit characters of `n`, most significant first. -/
def natDigits (n : ℕ) : List Char :=
  (Nat.toDigits 10 n)

/-- Left-pad a numeral with zeros to the given width. -/
def padNum (width n : ℕ) : List Char :=
  List.replicate (width - (natDigits n).length) '0' ++ natDigits n

/-- `datetime.strftime("%Y-%m-%d")`. -/
def formatDate (d : Date) : String :=
  String.mk (padNum 4 d.year ++ ['-'] ++ padNum 2 d.month ++ ['-'] ++ padNum 2 d.day)

/-! ### Interval arithmetic (`src/processing.py`, `restar_intervalo`) -/

/-- Python `str.split()` on spaces, dropping empty tokens. -/
def pySplit (s : String) : List (List Char) :=
  (splitOnChar ' ' s.data []).filter (· ≠ [])

/-- Python `int(s)` for a decimal literal with optional sign;
`none` where Python raises `ValueError`. -/
def parseIntQ (s : List Char) : Option ℤ :=
  match s with
  | '-' :: rest => (parseDigits rest).map (fun n => -(n : ℤ))
  | '+' :: rest => (parseDigits rest).map (fun n => (n : ℤ))
  | cs => (parseDigits cs).map (fun n => (n : ℤ))

/-- Python `str.lower()`. -/
def pyLower (s : List Char) : List Char := s.map Char.toLower

/-- The body of `restar_intervalo` after the date has been parsed:
split the interval string, parse the count, dispatch on which of
`d`/`w`/`m`/`y` occurs in the lowered unit token, and subtract.
Shared by `restar_intervalo` and the spec-modelled `subtract_interval`. -/
def applyIntervalSub (fecha : Date) (intervalo_str : String) : Except Exc Date :=
  match pySplit intervalo_str with
  | [] => .error .indexError
  | p0 :: rest =>
    match parseIntQ p0 with
    | none => .error .valueError
    | some cantidad =>
      match rest with
      | [] => .error .indexError
      | p1 :: _ =>
        let unidad := pyLower p1
        if unidad.contains 'd' then .ok (shiftBackDays fecha cantidad)
        else if unidad.contains 'w' then .ok (shiftBackDays fecha (7 * cantidad))
        else if unidad.contains 'm' then .ok (subMonths fecha cantidad)
        else if unidad.contains 'y' then .ok (subYears fecha cantidad)
        else .error .notValidInterval

theorem applyIntervalSub_split (fecha : Date) (s : String) :
    applyIntervalSub fecha s =
      (match pySplit s with
      | [] => .error .indexError
      | p0 :: rest =>
        match parseIntQ p0 with
        | none => .error .valueError
        | some cantidad =>
          match rest with
          | [] => .error .indexError
          | p1 :: _ =>
            if (pyLower p1).contains 'd' then .ok (shiftBackDays fecha cantidad)
            else if (pyLower p1).contains 'w' then .ok (shiftBackDays fecha (7 * cantidad))
            else if (pyLower p1).contains 'm' then .ok (subMonths fecha cantidad)
            else if (pyLower p1).contains 'y' then .ok (subYears fecha cantidad)
            else .error .notValidInterval) := rfl

/-- `restar_intervalo(fecha_str, intervalo_str)` from `src/processing.py`:
parse the ISO date, subtract the parsed interval, format the result.
`NotValidIntervalError` is `.error .notValidInterval`. -/
def restar_intervalo (fecha_str intervalo_str : String) : Except Exc String :=
  match parseDate fecha_str with
  | none => .error .valueError
  | some fecha =>
    match applyIntervalSub fecha intervalo_str with
    | .error e => .error e
    | .ok nueva => .ok (formatDate nueva)

/-- Modelled from the spec: `subtract_interval`, which is called by
`src/buy.py`, `src/sell.py`, `src/bounded.py` and `src/multi_bounded.py`
but whose definition is not among the provided sources (only the Spanish
`restar_intervalo` is). Per spec section 4.1 it parses
\"<integer> <unit>\" and applies the same calendar-aware subtraction that
`restar_intervalo` applies, operating here directly on `Date`. -/
def subtract_interval (date : Date) (intervalo_str : String) : Except Exc Date :=
  applyIntervalSub date intervalo_str

instance {ε α : Type} [DecidableEq ε] [DecidableEq α] :
    DecidableEq (Except ε α) := fun a b =>
  match a, b with
  | .ok x, .ok y =>
    if h : x = y then isTrue (by rw [h]) else isFalse (fun hh => by
      cases hh; exact h rfl)
  | .error x, .error y =>
    if h : x = y then isTrue (by rw [h]) else isFalse (fun hh => by
      cases hh; exact h rfl)
  | .ok _, .error _ => isFalse (fun hh => Except.noConfusion hh)
  | .error _, .ok _ => isFalse (fun hh => Except.noConfusion hh)

example : restar_intervalo "2024-03-15" "1 month" = .ok "2024-02-15" := by decide
example : restar_intervalo "2024-03-31" "1 month" = .ok "2024-02-29" := by decide

example : rnd (5/2) = 2 := by decide
example : rnd (7/2) = 4 := by decide
example : round2 (-(6/1000)) = -(1/100) := by decide
example : round8 (1/3) = 33333333 / 100000000 := by decide

/-! ## Price series (`src/stockframe_manager.py`, `StockFrame`)

A `StockFrame` is its date-indexed `Close` column: the list of
`(date, close)` rows in index order (dates unique and increasing by the
load invariant of spec section 3). -/

structure StockFrame where
  entries : List (Date × ℚ)
deriving DecidableEq, Repr

/-- `StockFrame.get_price_in`: exact-date lookup of the `Close` value,
`None` when the date is absent. -/
def StockFrame.get_price_in (sf : StockFrame) (date : Date) : Option ℚ :=
  (sf.entries.find? (fun e => e.1 = date)).map (fun e => e.2)

/-- An upper bound on the number of calendar days from year 1 up to `d`:
every `prevDay` step strictly decreases it, so it bounds the number of
iterations of the backward walk in `get_last_valid_price`. -/
def pseudoDays (d : Date) : ℕ := 372 * d.year + 31 * (d.month - 1) + d.day

/-- The while-loop of `get_last_valid_price`: walk backward one calendar
day at a time while `current_date_str >= first_available_date`, until a
present price is found. `fuel` only serves termination; it is chosen
large enough (`pseudoDays`) that it never expires before the loop
condition fails. -/
def lastValidAux (sf : StockFrame) (first : Date) : ℕ → Date → Option ℚ
  | 0, _ => none
  | fuel+1, cur =>
    if first.key ≤ cur.key then
      match sf.get_price_in cur with
      | some p => some p
      | none => lastValidAux sf first fuel (prevDay cur)
    else none

/-- `StockFrame.get_last_valid_price`: most recent valid close on or
before `target`. On an empty frame Python's `self.index[0]` raises
`IndexError`; the core never queries an empty frame, modelled as absent. -/
def StockFrame.get_last_valid_price (sf : StockFrame) (target : Date) : Option ℚ :=
  match sf.entries.head? with
  | none => none
  | some e => lastValidAux sf e.1 (pseudoDays target + 1 - pseudoDays e.1) target

/-- The dates of the frame's index, in order (`self.sf.index`). -/
def StockFrame.dates (sf : StockFrame) : List Date := sf.entries.map (fun e => e.1)

/-! ## Operation log (`src/operations_manager.py`) -/

/-- One attempted trade. The attribute names follow `Operation.__init__`:
note the date attribute is called `fecha` (there is no `date` attribute). -/
structure Operation where
  type : String
  cash_amount : ℚ
  ticker : String
  stock_price : ℚ
  succesful : Bool
  fecha : Date
  trigger : String
deriving DecidableEq, Repr

/-- Decimal digits of an integer. -/
def intChars (z : ℤ) : List Char :=
  if z < 0 then '-' :: natDigits (-z).toNat else natDigits z.toNat

/-- Rendering of a rational in the description strings (Python renders
the float; an exact fraction stands in for it — the precise numeral text
is not load-bearing for any claim). -/
def ratChars (q : ℚ) : List Char :=
  if q.den = 1 then intChars q.num
  else intChars q.num ++ '/' :: natDigits q.den

/-- `Operation.get_description`. -/
def Operation.get_description (op : Operation) : String :=
  String.mk
    ((if op.succesful then "Succesful ".data else "Unsuccesful ".data)
      ++ op.type.data ++ " (".data ++ op.trigger.data
      ++ ") operation of ".data ++ ratChars op.cash_amount
      ++ "$ worth of ".data ++ op.ticker.data
      ++ " at ".data ++ ratChars op.stock_price
      ++ "$ in ".data ++ (formatDate op.fecha).data)

/-! ## The base strategy (`src/strategy.py`, class `Strategy`) -/

/-- One entry of `manual_orders_config`. -/
structure ManualOrder where
  date : Date
  type : String
  amount : ℚ
  override_sizing_type : Option String
deriving DecidableEq, Repr

/-- The mutable state of a `Strategy` instance. `closeTrigger` is a
ghost field recording the `trigger` argument of the `close_trade` call
that closed the strategy (observable in the log when a closing sale
happens); it mirrors no Python attribute and influences nothing. -/
structure StratState where
  name : String
  ticker : String
  start : Date
  endDate : Date
  initial_capital : ℚ
  fiat : ℚ
  stock : ℚ
  profits : Option ℚ
  operations : List Operation
  closed : Bool
  manual_orders : List ManualOrder
  sizing_type : String
  closeTrigger : Option String
deriving DecidableEq, Repr

namespace Strategy

/-- `Strategy.__init__`: `ValueError` for an unrecognized sizing type. -/
def mk (ticker : String) (start endDate : Date) (capital : ℚ)
    (sizing_type : String) (manual_orders : List ManualOrder)
    (name : String) : Except Exc StratState :=
  if sizing_type = "static" ∨ sizing_type = "initial" ∨ sizing_type = "current" then
    .ok { name := name, ticker := ticker, start := start, endDate := endDate,
          initial_capital := capital, fiat := capital, stock := 0,
          profits := none, operations := [], closed := false,
          manual_orders := manual_orders, sizing_type := sizing_type,
          closeTrigger := none }
  else .error .valueError

/-- `Strategy._calculate_order_amount`. -/
def _calculate_order_amount (s : StratState) (quantity : ℚ)
    (override_sizing_type : Option String) : Except Exc ℚ :=
  let current_sizing := override_sizing_type.getD s.sizing_type
  if current_sizing = "static" then .ok quantity
  else if current_sizing = "initial" then .ok (s.initial_capital * quantity)
  else if current_sizing = "current" then .ok (s.fiat * quantity)
  else .error .valueError

/-- The price resolution shared by `buy` / `buy_all` / `sell` /
`sell_all`: `get_price_in(date)`, falling back to
`get_last_valid_price(date)`. -/
def resolvePrice (sf : StockFrame) (date : Date) : Option ℚ :=
  match sf.get_price_in date with
  | some p => some p
  | none => sf.get_last_valid_price date

/-- `Strategy.buy`. With no resolvable price the trade is skipped with a
printed warning. Below one cent the order is a no-op. On insufficient
cash a failed `Operation` is appended and `NotEnoughCashError` raised. -/
def buy (sf : StockFrame) (s : StratState) (quantity : ℚ) (date : Date)
    (trigger : String) (override_sizing_type : Option String) :
    StratState × Option Exc :=
  match resolvePrice sf date with
  | none => (s, none)
  | some stock_price =>
    match _calculate_order_amount s quantity override_sizing_type with
    | .error e => (s, some e)
    | .ok amt =>
      let cash_amount := round2 amt
      if cash_amount ≥ 1/100 then
        if s.fiat - cash_amount > -(1/100) then
          ({ s with
              fiat := round2 (s.fiat - cash_amount),
              stock := s.stock + round8 (cash_amount / stock_price),
              operations := s.operations ++
                [⟨"buy", cash_amount, s.ticker, stock_price, true, date, trigger⟩] },
            none)
        else
          ({ s with
              operations := s.operations ++
                [⟨"buy", cash_amount, s.ticker, stock_price, false, date, trigger⟩] },
            some .notEnoughCash)
      else (s, none)

/-- `Strategy.buy_all`: invest the entire fiat balance (unrounded). -/
def buy_all (sf : StockFrame) (s : StratState) (date : Date)
    (trigger : String) : StratState × Option Exc :=
  match resolvePrice sf date with
  | none => (s, none)
  | some stock_price =>
    if s.fiat > 0 then
      ({ s with
          fiat := 0,
          stock := s.stock + round8 (s.fiat / stock_price),
          operations := s.operations ++
            [⟨"buy", s.fiat, s.ticker, stock_price, true, date, trigger⟩] },
        none)
    else (s, none)

/-- `Strategy.sell`. Note the branch structure of the source: the
`"initial"` sizing computes `stock * price * quantity` (a percentage of
the position's market value) while both the `"current"` and the
`"static"` branch delegate to `_calculate_order_amount`. -/
def sell (sf : StockFrame) (s : StratState) (quantity : ℚ) (date : Date)
    (trigger : String) (override_sizing_type : Option String) :
    StratState × Option Exc :=
  let current_sizing := override_sizing_type.getD s.sizing_type
  match resolvePrice sf date with
  | none => (s, none)
  | some stock_price =>
    match
      (if current_sizing = "initial" then
        .ok (round2 (s.stock * stock_price * quantity))
      else if current_sizing = "current" then
        (_calculate_order_amount s quantity override_sizing_type).map round2
      else
        (_calculate_order_amount s quantity override_sizing_type).map round2 :
        Except Exc ℚ) with
    | .error e => (s, some e)
    | .ok cash_amount =>
      if cash_amount ≥ 1/100 then
        let stock_amount := round8 (cash_amount / stock_price)
        if s.stock - stock_amount ≥ -(1/1000000) then
          ({ s with
              fiat := round2 (s.fiat + cash_amount),
              stock := s.stock - stock_amount,
              operations := s.operations ++
                [⟨"sell", cash_amount, s.ticker, stock_price, true, date, trigger⟩] },
            none)
        else
          ({ s with
              operations := s.operations ++
                [⟨"sell", cash_amount, s.ticker, stock_price, false, date, trigger⟩] },
            some .notEnoughStock)
      else (s, none)

/-- `Strategy.sell_all`: liquidate the whole position. Never raises. -/
def sell_all (sf : StockFrame) (s : StratState) (date : Date)
    (trigger : String) : StratState :=
  match resolvePrice sf date with
  | none => s
  | some stock_price =>
    if s.stock > 0 then
      { s with
          fiat := round2 (s.fiat + round2 (s.stock * stock_price)),
          stock := 0,
          operations := s.operations ++
            [⟨"sell", round2 (s.stock * stock_price), s.ticker, stock_price,
              true, date, trigger⟩] }
    else s

/-- `Strategy.close_trade`: idempotent; sell everything, fix `profits`,
mark closed. -/
def close_trade (sf : StockFrame) (s : StratState) (date : Date)
    (trigger : String) : StratState :=
  if s.closed then s
  else
    let s1 := sell_all sf s date trigger
    { s1 with
        profits := some (round2 (s1.fiat - s1.initial_capital)),
        closed := true,
        closeTrigger := some trigger }

/-- `Strategy.get_profit`. -/
def get_profit (s : StratState) : Except Exc ℚ :=
  match s.profits with
  | some p => .ok p
  | none => .error .tradeNotClosed

/-- One manual order inside the loop of `Strategy.check_and_do`;
`NotEnoughCashError` / `NotEnoughStockError` are caught there with a
printed warning, every other exception propagates. -/
def runManualOrder (sf : StockFrame) (s : StratState) (order : ManualOrder)
    (date : Date) : StratState × Option Exc :=
  let sizing := order.override_sizing_type.getD s.sizing_type
  let res : StratState × Option Exc :=
    if order.type = "buy" then buy sf s order.amount date "manual_order" (some sizing)
    else if order.type = "buy_all" then buy_all sf s date "manual_order"
    else if order.type = "sell" then sell sf s order.amount date "manual_order" (some sizing)
    else if order.type = "sell_all" then (sell_all sf s date "manual_order", none)
    else (s, none)
  match res.2 with
  | some .notEnoughCash => (res.1, none)
  | some .notEnoughStock => (res.1, none)
  | other => (res.1, other)

/-- The loop of `Strategy.check_and_do` over `manual_orders_config`. -/
def runManualOrders (sf : StockFrame) (date : Date) :
    List ManualOrder → StratState → StratState × Option Exc
  | [], s => (s, none)
  | order :: rest, s =>
    if order.date = date then
      match runManualOrder sf s order date with
      | (s', none) => runManualOrders sf date rest s'
      | (s', some e) => (s', some e)
    else runManualOrders sf date rest s

/-- `Strategy.check_and_do` (base): execute the manual orders scheduled
for `date`. -/
def check_and_do (sf : StockFrame) (s : StratState) (date : Date) :
    StratState × Option Exc :=
  runManualOrders sf date s.manual_orders s

end Strategy

/-! ## Claim C7 — insufficient funds on `buy` -/

/-- **C7.** For every Strategy with `fiat = 100` and a resolvable price,
`buy(200, date)` in static sizing fails with `NotEnoughCashError`,
leaves `fiat` at 100 and `stock` unchanged, and appends exactly one
Operation with `cash_amount = 200`, `successful = false` before
signaling. (The returned state differs from the input state only in its
operation log, so fiat and stock are untouched.) -/
theorem C7_buy_insufficient_cash (sf : StockFrame) (s : StratState)
    (d : Date) (p : ℚ) (tr : String)
    (hf : s.fiat = 100) (hsz : s.sizing_type = "static")
    (hp : Strategy.resolvePrice sf d = some p) :
    Strategy.buy sf s 200 d tr none =
      ({ s with operations := s.operations ++
          [⟨"buy", 200, s.ticker, p, false, d, tr⟩] }, some .notEnoughCash) := by
  have h200 : round2 (200 : ℚ) = 200 := round2_centMul ⟨20000, by norm_num⟩
  simp only [Strategy.buy, Strategy._calculate_order_amount, hp, Option.getD_none,
    hsz, if_pos rfl, h200]
  norm_num [hf, h200]

/-- Concrete instantiation of `C7_buy_insufficient_cash`. -/
def sfC7 : StockFrame := ⟨[(⟨2024, 1, 2⟩, 5)]⟩

/-- A freshly constructed static-sizing strategy holding 100 in cash. -/
def sC7 : StratState :=
  { name := "w", ticker := "T", start := ⟨2024, 1, 1⟩, endDate := ⟨2024, 12, 31⟩,
    initial_capital := 100, fiat := 100, stock := 0, profits := none,
    operations := [], closed := false, manual_orders := [],
    sizing_type := "static", closeTrigger := none }

theorem C7_buy_insufficient_cash_witness :
    Strategy.buy sfC7 sC7 200 ⟨2024, 1, 2⟩ "manual" none =
      ({ sC7 with operations :=
          [⟨"buy", 200, "T", 5, false, ⟨2024, 1, 2⟩, "manual"⟩] },
        some .notEnoughCash) :=
  C7_buy_insufficient_cash sfC7 sC7 ⟨2024, 1, 2⟩ 5 "manual" rfl rfl (by decide)

/-! ## Claim C1 — the sizing semantics of `sell` -/

/-- Input for the C1 counterexample: a strategy in `"current"` sizing
mode holding `fiat = 100` and `stock = 10`, price 5. -/
def sC1 : StratState :=
  { name := "c1", ticker := "T", start := ⟨2024, 1, 1⟩, endDate := ⟨2024, 12, 31⟩,
    initial_capital := 150, fiat := 100, stock := 10, profits := none,
    operations := [], closed := false, manual_orders := [],
    sizing_type := "current", closeTrigger := none }

def sfC1 : StockFrame := ⟨[(⟨2024, 1, 2⟩, 5)]⟩

/-- **C1, counterexample.** The claim says that in `"current"` sizing
mode `sell(quantity, date)` uses `cash_amount = stock * price * quantity`.
At `fiat = 100`, `stock = 10`, price 5, `quantity = 1/2` the code
records a sell of `fiat * quantity = 50`, not
`stock * price * quantity = 25`: the `"current"` branch of
`Strategy.sell` delegates to `_calculate_order_amount`, which returns
`fiat * quantity`. -/
theorem C1_cex_sell_current_uses_fiat :
    (Strategy.sell sfC1 sC1 (1/2) ⟨2024, 1, 2⟩ "t" none).1.operations =
      [⟨"sell", 50, "T", 5, true, ⟨2024, 1, 2⟩, "t"⟩] ∧
    (50 : ℚ) ≠ sC1.stock * 5 * (1/2) := by
  constructor
  · decide
  · decide

/-- **C1, amended.** In `"current"` sizing mode `sell`'s cash amount is
`fiat * quantity` — the same current-cash semantics as `buy`'s. The
position-value semantics `stock * price * quantity` is what `sell`
applies under the `"initial"` sizing label instead. Stated on the
operation the call appends (appended whether or not the sale succeeds,
whenever the amount clears the one-cent dust threshold). -/
theorem C1_amended_sell_sizing (sf : StockFrame) (d : Date) (tr : String) (q : ℚ) :
    (∀ (s : StratState) (p : ℚ), s.sizing_type = "current" →
      Strategy.resolvePrice sf d = some p →
      round2 (s.fiat * q) ≥ 1/100 →
      ∃ suc, (Strategy.sell sf s q d tr none).1.operations =
        s.operations ++ [⟨"sell", round2 (s.fiat * q), s.ticker, p, suc, d, tr⟩]) ∧
    (∀ (s : StratState) (p : ℚ), s.sizing_type = "initial" →
      Strategy.resolvePrice sf d = some p →
      round2 (s.stock * p * q) ≥ 1/100 →
      ∃ suc, (Strategy.sell sf s q d tr none).1.operations =
        s.operations ++ [⟨"sell", round2 (s.stock * p * q), s.ticker, p, suc, d, tr⟩]) ∧
    (∀ (s : StratState) (p : ℚ), s.sizing_type = "current" →
      Strategy.resolvePrice sf d = some p →
      round2 (s.fiat * q) ≥ 1/100 →
      ∃ suc, (Strategy.buy sf s q d tr none).1.operations =
        s.operations ++ [⟨"buy", round2 (s.fiat * q), s.ticker, p, suc, d, tr⟩]) := by
  refine ⟨?_, ?_, ?_⟩
  · intro s p hsz hp hge
    have hcalc : Strategy._calculate_order_amount s q none = .ok (s.fiat * q) := by
      simp [Strategy._calculate_order_amount, hsz]
    by_cases hstk : s.stock - round8 (round2 (s.fiat * q) / p) ≥ -(1/1000000)
    · refine ⟨true, ?_⟩
      simp [Strategy.sell, Except.map, hp, hsz, hcalc]
      rw [if_pos (by linarith), if_pos (by linarith)]
    · refine ⟨false, ?_⟩
      simp [Strategy.sell, Except.map, hp, hsz, hcalc]
      rw [if_pos (by linarith), if_neg (fun hcon => hstk (by linarith))]
  · intro s p hsz hp hge
    by_cases hstk : s.stock - round8 (round2 (s.stock * p * q) / p) ≥ -(1/1000000)
    · refine ⟨true, ?_⟩
      simp [Strategy.sell, Except.map, hp, hsz]
      rw [if_pos (by linarith), if_pos (by linarith)]
    · refine ⟨false, ?_⟩
      simp [Strategy.sell, Except.map, hp, hsz]
      rw [if_pos (by linarith), if_neg (fun hcon => hstk (by linarith))]
  · intro s p hsz hp hge
    have hcalc : Strategy._calculate_order_amount s q none = .ok (s.fiat * q) := by
      simp [Strategy._calculate_order_amount, hsz]
    by_cases hcash : s.fiat - round2 (s.fiat * q) > -(1/100)
    · refine ⟨true, ?_⟩
      simp [Strategy.buy, Except.map, hp, hsz, hcalc]
      rw [if_pos (by linarith), if_pos (by linarith)]
    · refine ⟨false, ?_⟩
      simp [Strategy.buy, Except.map, hp, hsz, hcalc]
      rw [if_pos (by linarith), if_neg (fun hcon => hcash (by linarith))]

/-- A strategy in `"initial"` sizing mode for the C1 witness. -/
def sC1i : StratState := { sC1 with sizing_type := "initial" }

theorem C1_amended_sell_sizing_witness :
    (∃ suc, (Strategy.sell sfC1 sC1 (1/2) ⟨2024, 1, 2⟩ "t" none).1.operations =
      sC1.operations ++ [⟨"sell", round2 (sC1.fiat * (1/2)), sC1.ticker, 5, suc,
        ⟨2024, 1, 2⟩, "t"⟩]) ∧
    (∃ suc, (Strategy.sell sfC1 sC1i (1/2) ⟨2024, 1, 2⟩ "t" none).1.operations =
      sC1i.operations ++ [⟨"sell", round2 (sC1i.stock * 5 * (1/2)), sC1i.ticker, 5, suc,
        ⟨2024, 1, 2⟩, "t"⟩]) ∧
    (∃ suc, (Strategy.buy sfC1 sC1 (1/2) ⟨2024, 1, 2⟩ "t" none).1.operations =
      sC1.operations ++ [⟨"buy", round2 (sC1.fiat * (1/2)), sC1.ticker, 5, suc,
        ⟨2024, 1, 2⟩, "t"⟩]) :=
  ⟨(C1_amended_sell_sizing sfC1 ⟨2024, 1, 2⟩ "t" (1/2)).1 sC1 5 rfl (by decide) (by decide),
   (C1_amended_sell_sizing sfC1 ⟨2024, 1, 2⟩ "t" (1/2)).2.1 sC1i 5 rfl (by decide) (by decide),
   (C1_amended_sell_sizing sfC1 ⟨2024, 1, 2⟩ "t" (1/2)).2.2 sC1 5 rfl (by decide) (by decide)⟩

/-! ## Claim C4 — conservation invariants of the base strategy -/

/-- The four public trading primitives of `Strategy`, as callable
actions (the sequences quantified over in the conservation claim). -/
inductive Act where
  | buyA (q : ℚ) (d : Date) (tr : String) (ov : Option String)
  | buyAllA (d : Date) (tr : String)
  | sellA (q : ℚ) (d : Date) (tr : String) (ov : Option String)
  | sellAllA (d : Date) (tr : String)

/-- Perform one action; a raised `NotEnoughCashError` / `NotEnoughStockError`
leaves the caller with the state as mutated before the raise
(the returned first component). -/
def runAct (sf : StockFrame) (s : StratState) : Act → StratState
  | .buyA q d tr ov => (Strategy.buy sf s q d tr ov).1
  | .buyAllA d tr => (Strategy.buy_all sf s d tr).1
  | .sellA q d tr ov => (Strategy.sell sf s q d tr ov).1
  | .sellAllA d tr => Strategy.sell_all sf s d tr

/-- All intermediate states of an action sequence, initial state included. -/
def scanActs (sf : StockFrame) : List Act → StratState → List StratState
  | [], s => [s]
  | a :: rest, s => s :: scanActs sf rest (runAct sf s a)

/-- The state after an action sequence. -/
def runActs (sf : StockFrame) (acts : List Act) (s : StratState) : StratState :=
  acts.foldl (runAct sf) s

theorem runActs_cons (sf : StockFrame) (a : Act) (rest : List Act) (s : StratState) :
    runActs sf (a :: rest) s = runActs sf rest (runAct sf s a) := rfl

/-- The state invariant actually maintained by the trading primitives:
cash is a nonnegative whole number of cents, and the position can dip
at most `1e-6` below zero (the epsilon slack of the stock check). -/
def StratInv (s : StratState) : Prop :=
  0 ≤ s.fiat ∧ CentMul s.fiat ∧ -(1/1000000) ≤ s.stock

theorem get_price_in_nonneg {sf : StockFrame} {d : Date} {p : ℚ}
    (hpr : ∀ e ∈ sf.entries, 0 ≤ e.2)
    (h : sf.get_price_in d = some p) : 0 ≤ p := by
  unfold StockFrame.get_price_in at h
  cases hfind : sf.entries.find? (fun e => e.1 = d) with
  | none => rw [hfind] at h; cases h
  | some e =>
    rw [hfind] at h
    cases h
    exact hpr e (List.mem_of_find?_eq_some hfind)

theorem lastValidAux_nonneg {sf : StockFrame} {first : Date} {p : ℚ}
    (hpr : ∀ e ∈ sf.entries, 0 ≤ e.2) :
    ∀ (fuel : ℕ) (cur : Date), lastValidAux sf first fuel cur = some p → 0 ≤ p := by
  intro fuel
  induction fuel with
  | zero => intro cur h; cases h
  | succ n ih =>
    intro cur h
    unfold lastValidAux at h
    by_cases hcmp : first.key ≤ cur.key
    · rw [if_pos hcmp] at h
      cases hget : sf.get_price_in cur with
      | none => rw [hget] at h; exact ih (prevDay cur) h
      | some q => rw [hget] at h; cases h; exact get_price_in_nonneg hpr hget
    · rw [if_neg hcmp] at h; cases h

theorem resolvePrice_nonneg {sf : StockFrame} {d : Date} {p : ℚ}
    (hpr : ∀ e ∈ sf.entries, 0 ≤ e.2)
    (h : Strategy.resolvePrice sf d = some p) : 0 ≤ p := by
  unfold Strategy.resolvePrice at h
  cases hget : sf.get_price_in d with
  | some q =>
    rw [hget] at h; cases h; exact get_price_in_nonneg hpr hget
  | none =>
    rw [hget] at h
    unfold StockFrame.get_last_valid_price at h
    cases hhead : sf.entries.head? with
    | none => rw [hhead] at h; cases h
    | some e =>
      rw [hhead] at h
      exact lastValidAux_nonneg hpr _ _ h

theorem stratInv_buy {sf : StockFrame} {s : StratState}
    (hpr : ∀ e ∈ sf.entries, 0 ≤ e.2) (hinv : StratInv s)
    (q : ℚ) (d : Date) (tr : String) (ov : Option String) :
    StratInv (Strategy.buy sf s q d tr ov).1 := by
  obtain ⟨hfiat, hcent, hstk⟩ := hinv
  unfold Strategy.buy
  cases hres : Strategy.resolvePrice sf d with
  | none => exact ⟨hfiat, hcent, hstk⟩
  | some price =>
    have hprice : 0 ≤ price := resolvePrice_nonneg hpr hres
    cases hcalc : Strategy._calculate_order_amount s q ov with
    | error e => exact ⟨hfiat, hcent, hstk⟩
    | ok amt =>
      simp only
      by_cases h1 : round2 amt ≥ 1/100
      · rw [if_pos h1]
        by_cases h2 : s.fiat - round2 amt > -(1/100)
        · rw [if_pos h2]
          refine ⟨?_, ?_, ?_⟩
          · have hc : CentMul (s.fiat - round2 amt) :=
              centMul_sub hcent (centMul_round2 amt)
            rw [round2_centMul hc]
            exact centMul_pos_of_gt_neg_cent hc h2
          · exact centMul_round2 _
          · have : 0 ≤ round8 (round2 amt / price) :=
              round8_nonneg (div_nonneg (by linarith) hprice)
            simpa using le_trans hstk (by linarith)
        · rw [if_neg h2]
          exact ⟨hfiat, hcent, hstk⟩
      · rw [if_neg h1]
        exact ⟨hfiat, hcent, hstk⟩

theorem stratInv_buy_all {sf : StockFrame} {s : StratState}
    (hpr : ∀ e ∈ sf.entries, 0 ≤ e.2) (hinv : StratInv s)
    (d : Date) (tr : String) :
    StratInv (Strategy.buy_all sf s d tr).1 := by
  obtain ⟨hfiat, hcent, hstk⟩ := hinv
  unfold Strategy.buy_all
  cases hres : Strategy.resolvePrice sf d with
  | none => exact ⟨hfiat, hcent, hstk⟩
  | some price =>
    have hprice : 0 ≤ price := resolvePrice_nonneg hpr hres
    simp only
    by_cases h1 : s.fiat > 0
    · rw [if_pos h1]
      refine ⟨le_refl 0, ⟨0, by norm_num⟩, ?_⟩
      have : 0 ≤ round8 (s.fiat / price) :=
        round8_nonneg (div_nonneg (by linarith) hprice)
      simpa using le_trans hstk (by linarith)
    · rw [if_neg h1]
      exact ⟨hfiat, hcent, hstk⟩

theorem stratInv_sell {sf : StockFrame} {s : StratState}
    (hpr : ∀ e ∈ sf.entries, 0 ≤ e.2) (hinv : StratInv s)
    (q : ℚ) (d : Date) (tr : String) (ov : Option String) :
    StratInv (Strategy.sell sf s q d tr ov).1 := by
  obtain ⟨hfiat, hcent, hstk⟩ := hinv
  unfold Strategy.sell
  cases hres : Strategy.resolvePrice sf d with
  | none => exact ⟨hfiat, hcent, hstk⟩
  | some price =>
    simp only
    set cashE : Except Exc ℚ :=
      (if (ov.getD s.sizing_type) = "initial" then
        Except.ok (round2 (s.stock * price * q))
      else if (ov.getD s.sizing_type) = "current" then
        (Strategy._calculate_order_amount s q ov).map round2
      else
        (Strategy._calculate_order_amount s q ov).map round2) with hcashE
    cases hc : cashE with
    | error e => exact ⟨hfiat, hcent, hstk⟩
    | ok cash =>
      simp only
      by_cases h1 : cash ≥ 1/100
      · rw [if_pos h1]
        by_cases h2 : s.stock - round8 (cash / price) ≥ -(1/1000000)
        · rw [if_pos h2]
          refine ⟨round2_nonneg (by linarith), centMul_round2 _, h2⟩
        · rw [if_neg h2]
          exact ⟨hfiat, hcent, hstk⟩
      · rw [if_neg h1]
        exact ⟨hfiat, hcent, hstk⟩

theorem stratInv_sell_all {sf : StockFrame} {s : StratState}
    (hpr : ∀ e ∈ sf.entries, 0 ≤ e.2) (hinv : StratInv s)
    (d : Date) (tr : String) :
    StratInv (Strategy.sell_all sf s d tr) := by
  obtain ⟨hfiat, hcent, hstk⟩ := hinv
  unfold Strategy.sell_all
  cases hres : Strategy.resolvePrice sf d with
  | none => exact ⟨hfiat, hcent, hstk⟩
  | some price =>
    have hprice : 0 ≤ price := resolvePrice_nonneg hpr hres
    simp only
    by_cases h1 : s.stock > 0
    · rw [if_pos h1]
      have hval : 0 ≤ round2 (s.stock * price) :=
        round2_nonneg (mul_nonneg (by linarith) hprice)
      exact ⟨round2_nonneg (by linarith), centMul_round2 _, by norm_num⟩
    · rw [if_neg h1]
      exact ⟨hfiat, hcent, hstk⟩

theorem stratInv_runAct {sf : StockFrame} {s : StratState}
    (hpr : ∀ e ∈ sf.entries, 0 ≤ e.2) (hinv : StratInv s) (a : Act) :
    StratInv (runAct sf s a) := by
  cases a with
  | buyA q d tr ov => exact stratInv_buy hpr hinv q d tr ov
  | buyAllA d tr => exact stratInv_buy_all hpr hinv d tr
  | sellA q d tr ov => exact stratInv_sell hpr hinv q d tr ov
  | sellAllA d tr => exact stratInv_sell_all hpr hinv d tr

theorem stratInv_scanActs {sf : StockFrame}
    (hpr : ∀ e ∈ sf.entries, 0 ≤ e.2) :
    ∀ (acts : List Act) (s : StratState), StratInv s →
      ∀ s' ∈ scanActs sf acts s, StratInv s' := by
  intro acts
  induction acts with
  | nil =>
    intro s hs s' hmem
    simp only [scanActs, List.mem_singleton] at hmem
    rwa [hmem]
  | cons a rest ih =>
    intro s hs s' hmem
    simp only [scanActs, List.mem_cons] at hmem
    cases hmem with
    | inl h => rwa [h]
    | inr h => exact ih (runAct sf s a) (stratInv_runAct hpr hs a) s' h


theorem buy_frame (sf : StockFrame) (s : StratState) (q : ℚ) (d : Date)
    (tr : String) (ov : Option String) :
    (Strategy.buy sf s q d tr ov).1.initial_capital = s.initial_capital ∧
    (Strategy.buy sf s q d tr ov).1.closed = s.closed ∧
    (Strategy.buy sf s q d tr ov).1.sizing_type = s.sizing_type ∧
    (Strategy.buy sf s q d tr ov).1.manual_orders = s.manual_orders := by
  unfold Strategy.buy
  try dsimp only
  repeat' split
  all_goals exact ⟨rfl, rfl, rfl, rfl⟩

theorem buy_all_frame (sf : StockFrame) (s : StratState) (d : Date)
    (tr : String) :
    (Strategy.buy_all sf s d tr).1.initial_capital = s.initial_capital ∧
    (Strategy.buy_all sf s d tr).1.closed = s.closed ∧
    (Strategy.buy_all sf s d tr).1.sizing_type = s.sizing_type ∧
    (Strategy.buy_all sf s d tr).1.manual_orders = s.manual_orders := by
  unfold Strategy.buy_all
  try dsimp only
  repeat' split
  all_goals exact ⟨rfl, rfl, rfl, rfl⟩

theorem sell_frame (sf : StockFrame) (s : StratState) (q : ℚ) (d : Date)
    (tr : String) (ov : Option String) :
    (Strategy.sell sf s q d tr ov).1.initial_capital = s.initial_capital ∧
    (Strategy.sell sf s q d tr ov).1.closed = s.closed ∧
    (Strategy.sell sf s q d tr ov).1.sizing_type = s.sizing_type ∧
    (Strategy.sell sf s q d tr ov).1.manual_orders = s.manual_orders := by
  unfold Strategy.sell
  try dsimp only
  repeat' split
  all_goals exact ⟨rfl, rfl, rfl, rfl⟩

theorem sell_all_frame (sf : StockFrame) (s : StratState) (d : Date)
    (tr : String) :
    (Strategy.sell_all sf s d tr).initial_capital = s.initial_capital ∧
    (Strategy.sell_all sf s d tr).closed = s.closed ∧
    (Strategy.sell_all sf s d tr).sizing_type = s.sizing_type ∧
    (Strategy.sell_all sf s d tr).manual_orders = s.manual_orders := by
  unfold Strategy.sell_all
  try dsimp only
  repeat' split
  all_goals exact ⟨rfl, rfl, rfl, rfl⟩

theorem runAct_frame (sf : StockFrame) (s : StratState) (a : Act) :
    (runAct sf s a).initial_capital = s.initial_capital ∧
    (runAct sf s a).closed = s.closed := by
  cases a with
  | buyA q d tr ov => exact ⟨(buy_frame sf s q d tr ov).1, (buy_frame sf s q d tr ov).2.1⟩
  | buyAllA d tr => exact ⟨(buy_all_frame sf s d tr).1, (buy_all_frame sf s d tr).2.1⟩
  | sellA q d tr ov => exact ⟨(sell_frame sf s q d tr ov).1, (sell_frame sf s q d tr ov).2.1⟩
  | sellAllA d tr => exact ⟨(sell_all_frame sf s d tr).1, (sell_all_frame sf s d tr).2.1⟩

theorem runActs_frame (sf : StockFrame) :
    ∀ (acts : List Act) (s : StratState),
      (runActs sf acts s).initial_capital = s.initial_capital ∧
      (runActs sf acts s).closed = s.closed := by
  intro acts
  induction acts with
  | nil => intro s; exact ⟨rfl, rfl⟩
  | cons a rest ih =>
    intro s
    rw [runActs_cons]
    exact ⟨(ih (runAct sf s a)).1.trans (runAct_frame sf s a).1,
           (ih (runAct sf s a)).2.trans (runAct_frame sf s a).2⟩

theorem sell_all_centMul {sf : StockFrame} {s : StratState}
    (h : CentMul s.fiat) (d : Date) (tr : String) :
    CentMul (Strategy.sell_all sf s d tr).fiat := by
  unfold Strategy.sell_all
  try dsimp only
  repeat' split
  all_goals first | exact h | exact centMul_round2 _

theorem runActs_mem_scanActs (sf : StockFrame) :
    ∀ (acts : List Act) (s0 : StratState),
      runActs sf acts s0 ∈ scanActs sf acts s0 := by
  intro acts
  induction acts with
  | nil => intro s0; simp [scanActs, runActs]
  | cons a rest ih =>
    intro s0
    rw [runActs_cons]
    simp only [scanActs, List.mem_cons]
    exact Or.inr (ih (runAct sf s0 a))

theorem close_trade_spec (sf : StockFrame) (s : StratState) (d : Date)
    (tr : String) (hclosed : s.closed = false)
    (hcentF : CentMul s.fiat) (hcentI : CentMul s.initial_capital) :
    (Strategy.close_trade sf s d tr).closed = true ∧
    (Strategy.close_trade sf s d tr).profits =
      some ((Strategy.close_trade sf s d tr).fiat - s.initial_capital) ∧
    (Strategy.resolvePrice sf d ≠ none → 0 < s.stock →
      (Strategy.close_trade sf s d tr).stock = 0) := by
  unfold Strategy.close_trade
  rw [if_neg (by simp [hclosed])]
  refine ⟨rfl, ?_, ?_⟩
  · have hfr := sell_all_frame sf s d tr
    have hc : CentMul ((Strategy.sell_all sf s d tr).fiat - s.initial_capital) :=
      centMul_sub (sell_all_centMul hcentF d tr) hcentI
    simp only [hfr.1]
    rw [round2_centMul hc]
  · intro hres hstk
    unfold Strategy.sell_all
    cases hp : Strategy.resolvePrice sf d with
    | none => exact absurd hp hres
    | some p =>
      simp only
      rw [if_pos hstk]

/-- **C4, amended.** For a strategy whose initial capital is a
nonnegative whole number of cents, over a price series with nonnegative
closes: at every point of any `buy`/`buy_all`/`sell`/`sell_all`
sequence, `fiat ≥ 0` holds, and `stock ≥ -1e-6` — not `stock ≥ 0`: the
epsilon slack of the stock-sufficiency check admits a negative dust
position (see the counterexample). After `close_trade(date)` the
strategy is closed with `profits = fiat - initialCapital` exactly, and
`stock = 0` provided a price is resolvable at `date` and the position
was strictly positive (a negative dust position survives the close
unchanged, so the claim's unconditional `stock == 0` fails). -/
theorem C4_amended_conservation (sf : StockFrame) (acts : List Act)
    (s0 : StratState) (d : Date) (tr : String)
    (hpr : ∀ e ∈ sf.entries, 0 ≤ e.2)
    (hfiat0 : s0.fiat = s0.initial_capital)
    (hcent0 : CentMul s0.initial_capital)
    (hcap0 : 0 ≤ s0.initial_capital)
    (hstk0 : s0.stock = 0)
    (hclosed0 : s0.closed = false) :
    (∀ s ∈ scanActs sf acts s0, 0 ≤ s.fiat ∧ -(1/1000000) ≤ s.stock) ∧
    ((Strategy.close_trade sf (runActs sf acts s0) d tr).closed = true ∧
      (Strategy.close_trade sf (runActs sf acts s0) d tr).profits =
        some ((Strategy.close_trade sf (runActs sf acts s0) d tr).fiat
          - s0.initial_capital) ∧
      (Strategy.resolvePrice sf d ≠ none → 0 < (runActs sf acts s0).stock →
        (Strategy.close_trade sf (runActs sf acts s0) d tr).stock = 0)) := by
  have hinv0 : StratInv s0 := by
    refine ⟨by rw [hfiat0]; exact hcap0, by rw [hfiat0]; exact hcent0, ?_⟩
    rw [hstk0]; norm_num
  have hend : StratInv (runActs sf acts s0) :=
    stratInv_scanActs hpr acts s0 hinv0 _ (runActs_mem_scanActs sf acts s0)
  refine ⟨?_, ?_⟩
  · intro s hmem
    have h := stratInv_scanActs hpr acts s0 hinv0 s hmem
    exact ⟨h.1, h.2.2⟩
  · have hfr := runActs_frame sf acts s0
    have hspec := close_trade_spec sf (runActs sf acts s0) d tr
      (hfr.2.trans hclosed0) hend.2.1 (hfr.1 ▸ hcent0)
    refine ⟨hspec.1, ?_, hspec.2.2⟩
    rw [hspec.2.1, hfr.1]

/-- The concrete C4 counterexample environment: one trading day at
price 3. -/
def sfC4 : StockFrame := ⟨[(⟨2024, 1, 2⟩, 3)]⟩

/-- The state `Strategy.mk "T" ... 100 "static" [] "c4"` constructs. -/
def s0C4 : StratState :=
  { name := "c4", ticker := "T", start := ⟨2024, 1, 1⟩, endDate := ⟨2024, 12, 31⟩,
    initial_capital := 100, fiat := 100, stock := 0, profits := none,
    operations := [], closed := false, manual_orders := [],
    sizing_type := "static", closeTrigger := none }

/-- Two one-dollar buys at price 3 followed by a two-dollar sell:
the stock bought is `2 * round8(1/3) = 0.66666666`, the stock sold is
`round8(2/3) = 0.66666667`, and the `-1e-6` slack lets the sale through. -/
def actsC4 : List Act :=
  [.buyA 1 ⟨2024, 1, 2⟩ "m" none,
   .buyA 1 ⟨2024, 1, 2⟩ "m" none,
   .sellA 2 ⟨2024, 1, 2⟩ "m" none]

/-- **C4, counterexample.** A freshly constructed static strategy with
capital 100, after two `buy(1)` and one `sell(2)` at price 3, holds
`stock = -1e-8 < 0`, refuting `stock >= 0`; and `close_trade` on a date
with a resolvable price leaves that negative stock in place, refuting
`stock == 0` after close. -/
theorem C4_cex_stock_negative :
    Strategy.mk "T" ⟨2024, 1, 1⟩ ⟨2024, 12, 31⟩ 100 "static" [] "c4" = .ok s0C4 ∧
    (runActs sfC4 actsC4 s0C4).stock < 0 ∧
    (Strategy.close_trade sfC4 (runActs sfC4 actsC4 s0C4) ⟨2024, 1, 2⟩ "fc").stock ≠ 0 := by
  refine ⟨by decide, by decide, by decide⟩

/-- Instantiation of `C4_amended_conservation` on the counterexample
run itself (initial capital `100 = 10000` cents). -/
theorem C4_amended_conservation_witness :
    (∀ s ∈ scanActs sfC4 actsC4 s0C4, 0 ≤ s.fiat ∧ -(1/1000000) ≤ s.stock) ∧
    ((Strategy.close_trade sfC4 (runActs sfC4 actsC4 s0C4) ⟨2024, 1, 2⟩ "fc").closed = true ∧
      (Strategy.close_trade sfC4 (runActs sfC4 actsC4 s0C4) ⟨2024, 1, 2⟩ "fc").profits =
        some ((Strategy.close_trade sfC4 (runActs sfC4 actsC4 s0C4) ⟨2024, 1, 2⟩ "fc").fiat
          - s0C4.initial_capital) ∧
      (Strategy.resolvePrice sfC4 ⟨2024, 1, 2⟩ ≠ none → 0 < (runActs sfC4 actsC4 s0C4).stock →
        (Strategy.close_trade sfC4 (runActs sfC4 actsC4 s0C4) ⟨2024, 1, 2⟩ "fc").stock = 0)) :=
  C4_amended_conservation sfC4 actsC4 s0C4 ⟨2024, 1, 2⟩ "fc"
    (by decide) rfl ⟨10000, by norm_num [s0C4]⟩ (by norm_num [s0C4]) rfl rfl

/-! ## Claim C8 — interval arithmetic -/

/-- **C8.** `subtractInterval("2024-03-15", "1 month") = "2024-02-15"`;
`subtractInterval("2024-03-31", "1 month")` does not crash and returns
`"2024-02-29"` by calendar-correct day-of-month rollover; and for every
interval string of the form `"<integer> <unit>"` (on a well-formed
date), the operation fails with `NotValidIntervalError` exactly when the
lowered unit token contains none of the letters `d`, `w`, `m`, `y`. -/
theorem C8_restar_intervalo_spec :
    restar_intervalo "2024-03-15" "1 month" = .ok "2024-02-15" ∧
    restar_intervalo "2024-03-31" "1 month" = .ok "2024-02-29" ∧
    (∀ (fecha intervalo : String) (a u : List Char) (k : ℤ) (date : Date),
      parseDate fecha = some date →
      pySplit intervalo = [a, u] →
      parseIntQ a = some k →
      ((restar_intervalo fecha intervalo = .error .notValidInterval) ↔
        ((pyLower u).contains 'd' = false ∧ (pyLower u).contains 'w' = false ∧
         (pyLower u).contains 'm' = false ∧ (pyLower u).contains 'y' = false))) := by
  refine ⟨by decide, by decide, ?_⟩
  intro fecha intervalo a u k date hparse hsplit hint
  simp only [restar_intervalo, hparse, applyIntervalSub, hsplit, hint]
  cases hd : (pyLower u).contains 'd' <;>
    cases hw : (pyLower u).contains 'w' <;>
      cases hm : (pyLower u).contains 'm' <;>
        cases hy : (pyLower u).contains 'y' <;>
          simp [hd, hw, hm, hy]

/-- Instantiation of the error-iff part of `C8_restar_intervalo_spec`
at the unrecognized unit token `"fortnights"`. -/
theorem C8_restar_intervalo_spec_witness :
    (restar_intervalo "2024-03-15" "3 fortnights" = .error .notValidInterval) ↔
      ((pyLower "fortnights".data).contains 'd' = false ∧
       (pyLower "fortnights".data).contains 'w' = false ∧
       (pyLower "fortnights".data).contains 'm' = false ∧
       (pyLower "fortnights".data).contains 'y' = false) :=
  C8_restar_intervalo_spec.2.2 "2024-03-15" "3 fortnights" "3".data "fortnights".data
    3 ⟨2024, 3, 15⟩ (by decide) (by decide) (by decide)

/-! ## Threshold strategies (`src/buy.py`, `src/sell.py`)

Python stores the threshold dynamically: an `int`, a `float`, or a
tuple. The trigger dispatch tests `isinstance(threshold, float)` /
`isinstance(threshold, tuple)` (resp. `type(...) == float` / `== tuple`
in `sell.py`), and a Python `int` is neither, so it falls through. -/

/-- A threshold / target value as the Python runtime sees it. -/
inductive Thresh where
  | pint (n : ℤ)
  | pfloat (q : ℚ)
  | ptuple (a b : ℚ)
deriving DecidableEq, Repr

/-- State of a `BuyStrategy` (also the base part of `DynamicBuyStrategy`). -/
structure BuyState where
  base : StratState
  threshold : Thresh
  amount_per_trade : ℚ
deriving DecidableEq, Repr

namespace BuyStrategy

/-- `BuyStrategy.check_and_do`: manual orders first (`super()`), then
the static threshold dispatch (tuple: inclusive range; float: exact
equality; int: no branch matches), then the end-of-range stop signal. -/
def check_and_do (sf : StockFrame) (bs : BuyState) (date : Date) :
    BuyState × Option Exc :=
  match Strategy.check_and_do sf bs.base date with
  | (s1, some e) => ({ bs with base := s1 }, some e)
  | (s1, none) =>
    let current_price := sf.get_price_in date
    let res : StratState × Option Exc :=
      match bs.threshold with
      | .ptuple a b =>
        match current_price with
        | some p =>
          if bs.base.start.key ≤ date.key ∧ date.key < bs.base.endDate.key ∧
              a ≤ p ∧ p ≤ b then
            Strategy.buy sf s1 bs.amount_per_trade date "automatic_check" none
          else (s1, none)
        | none => (s1, none)
      | .pfloat t =>
        match current_price with
        | some p =>
          if bs.base.start.key ≤ date.key ∧ date.key < bs.base.endDate.key ∧
              p = t then
            Strategy.buy sf s1 bs.amount_per_trade date "automatic_check" none
          else (s1, none)
        | none => (s1, none)
      | .pint _ => (s1, none)
    match res with
    | (s2, some e) => ({ bs with base := s2 }, some e)
    | (s2, none) =>
      if bs.base.endDate.key ≤ date.key then ({ bs with base := s2 }, some .stopChecking)
      else ({ bs with base := s2 }, none)

end BuyStrategy

/-- State of a `SellStrategy` (also the base part of `DynamicSellStrategy`). -/
structure SellState where
  base : StratState
  threshold : Thresh
  amount_per_trade : ℚ
deriving DecidableEq, Repr

namespace SellStrategy

/-- `SellStrategy.check_and_do`: unlike `BuyStrategy`, it does **not**
call the base `check_and_do` (no manual orders run); threshold dispatch
then the end-of-range stop signal. -/
def check_and_do (sf : StockFrame) (ss : SellState) (date : Date) :
    SellState × Option Exc :=
  let current_price := sf.get_price_in date
  let res : StratState × Option Exc :=
    match ss.threshold with
    | .ptuple a b =>
      match current_price with
      | some p =>
        if ss.base.start.key ≤ date.key ∧ date.key < ss.base.endDate.key ∧
            a ≤ p ∧ p ≤ b then
          Strategy.sell sf ss.base ss.amount_per_trade date "automatic_check" none
        else (ss.base, none)
      | none => (ss.base, none)
    | .pfloat t =>
      match current_price with
      | some p =>
        if ss.base.start.key ≤ date.key ∧ date.key < ss.base.endDate.key ∧
            p = t then
          Strategy.sell sf ss.base ss.amount_per_trade date "automatic_check" none
        else (ss.base, none)
      | none => (ss.base, none)
    | .pint _ => (ss.base, none)
  match res with
  | (s2, some e) => ({ ss with base := s2 }, some e)
  | (s2, none) =>
    if ss.base.endDate.key ≤ date.key then ({ ss with base := s2 }, some .stopChecking)
    else ({ ss with base := s2 }, none)

end SellStrategy

/-- State of a `DynamicBuyStrategy`. -/
structure DynBuyState where
  base : StratState
  threshold : Thresh
  amount_per_trade : ℚ
  trigger_lookback : String
deriving DecidableEq, Repr

namespace DynamicBuyStrategy

/-- `DynamicBuyStrategy.check_and_do`: the reference price is taken at
`subtract_interval(date, trigger_lookback)` via
`get_last_valid_price`; positive float threshold fires on
`current >= (1+t)*reference`, negative on `current <= (1+t)*reference`;
a tuple projects both endpoints onto the reference. Raised interval
errors from `subtract_interval` propagate. It does not call the base
`check_and_do`. -/
def check_and_do (sf : StockFrame) (s : DynBuyState) (date : Date) :
    DynBuyState × Option Exc :=
  match subtract_interval date s.trigger_lookback with
  | .error e => (s, some e)
  | .ok lb =>
    let res : StratState × Option Exc :=
      match sf.get_price_in date, sf.get_last_valid_price lb with
      | some c, some r =>
        if s.base.start.key ≤ date.key ∧ date.key < s.base.endDate.key then
          match s.threshold with
          | .pfloat t =>
            if t > 0 then
              if c ≥ (1 + t) * r then
                Strategy.buy sf s.base s.amount_per_trade date "dynamic_check" none
              else (s.base, none)
            else if t < 0 then
              if c ≤ (1 + t) * r then
                Strategy.buy sf s.base s.amount_per_trade date "dynamic_check" none
              else (s.base, none)
            else (s.base, none)
          | .ptuple a b =>
            if min ((1 + a) * r) ((1 + b) * r) ≤ c ∧
                c ≤ max ((1 + a) * r) ((1 + b) * r) then
              Strategy.buy sf s.base s.amount_per_trade date "dynamic_check" none
            else (s.base, none)
          | .pint _ => (s.base, none)
        else (s.base, none)
      | _, _ => (s.base, none)
    match res with
    | (s2, some e) => ({ s with base := s2 }, some e)
    | (s2, none) =>
      if s.base.endDate.key ≤ date.key then ({ s with base := s2 }, some .stopChecking)
      else ({ s with base := s2 }, none)

end DynamicBuyStrategy

/-- State of a `DynamicSellStrategy`. -/
structure DynSellState where
  base : StratState
  threshold : Thresh
  amount_per_trade : ℚ
  trigger_lookback : String
deriving DecidableEq, Repr

namespace DynamicSellStrategy

/-- `DynamicSellStrategy.check_and_do`: same trigger rule as the dynamic
buy, executing `sell` instead of `buy`. -/
def check_and_do (sf : StockFrame) (s : DynSellState) (date : Date) :
    DynSellState × Option Exc :=
  match subtract_interval date s.trigger_lookback with
  | .error e => (s, some e)
  | .ok lb =>
    let res : StratState × Option Exc :=
      match sf.get_price_in date, sf.get_last_valid_price lb with
      | some c, some r =>
        if s.base.start.key ≤ date.key ∧ date.key < s.base.endDate.key then
          match s.threshold with
          | .pfloat t =>
            if t > 0 then
              if c ≥ (1 + t) * r then
                Strategy.sell sf s.base s.amount_per_trade date "dynamic_check" none
              else (s.base, none)
            else if t < 0 then
              if c ≤ (1 + t) * r then
                Strategy.sell sf s.base s.amount_per_trade date "dynamic_check" none
              else (s.base, none)
            else (s.base, none)
          | .ptuple a b =>
            if min ((1 + a) * r) ((1 + b) * r) ≤ c ∧
                c ≤ max ((1 + a) * r) ((1 + b) * r) then
              Strategy.sell sf s.base s.amount_per_trade date "dynamic_check" none
            else (s.base, none)
          | .pint _ => (s.base, none)
        else (s.base, none)
      | _, _ => (s.base, none)
    match res with
    | (s2, some e) => ({ s with base := s2 }, some e)
    | (s2, none) =>
      if s.base.endDate.key ≤ date.key then ({ s with base := s2 }, some .stopChecking)
      else ({ s with base := s2 }, none)

end DynamicSellStrategy

/-! ## Claim C3 — dynamic percentage triggers -/

theorem dynBuy_wrap (base : StratState) (th : Thresh) (amt : ℚ) (lbk : String)
    (date : Date) (res : StratState × Option Exc)
    (hend : date.key < base.endDate.key) :
    (match res with
      | (s2, some e) => ((⟨s2, th, amt, lbk⟩ : DynBuyState), some e)
      | (s2, none) =>
        if base.endDate.key ≤ date.key then
          ((⟨s2, th, amt, lbk⟩ : DynBuyState), some Exc.stopChecking)
        else ((⟨s2, th, amt, lbk⟩ : DynBuyState), none)) =
      ((⟨res.1, th, amt, lbk⟩ : DynBuyState), res.2) := by
  obtain ⟨s2, e2⟩ := res
  cases e2 with
  | some e => rfl
  | none => simp only; rw [if_neg (by omega)]

theorem dynSell_wrap (base : StratState) (th : Thresh) (amt : ℚ) (lbk : String)
    (date : Date) (res : StratState × Option Exc)
    (hend : date.key < base.endDate.key) :
    (match res with
      | (s2, some e) => ((⟨s2, th, amt, lbk⟩ : DynSellState), some e)
      | (s2, none) =>
        if base.endDate.key ≤ date.key then
          ((⟨s2, th, amt, lbk⟩ : DynSellState), some Exc.stopChecking)
        else ((⟨s2, th, amt, lbk⟩ : DynSellState), none)) =
      ((⟨res.1, th, amt, lbk⟩ : DynSellState), res.2) := by
  obtain ⟨s2, e2⟩ := res
  cases e2 with
  | some e => rfl
  | none => simp only; rw [if_neg (by omega)]

/-- **C3.** For every `DynamicBuyStrategy` with a float threshold `t`
and every date `d` with `start <= d < end` for which the current price
`c` and the lookback reference price `r` both resolve:
with `t > 0`, `check_and_do(d)` executes a buy exactly when
`c >= (1+t)*r`; with `t < 0`, exactly when `c <= (1+t)*r`; and
otherwise it leaves the strategy untouched. The symmetric rule holds
for `DynamicSellStrategy`'s sell. -/
theorem C3_dynamic_threshold_triggers (sf : StockFrame) (d lb : Date) (c r t : ℚ) :
    (∀ s : DynBuyState,
      s.threshold = .pfloat t →
      s.base.start.key ≤ d.key → d.key < s.base.endDate.key →
      sf.get_price_in d = some c →
      subtract_interval d s.trigger_lookback = .ok lb →
      sf.get_last_valid_price lb = some r →
      (0 < t →
        DynamicBuyStrategy.check_and_do sf s d =
          (if c ≥ (1 + t) * r then
            ({ s with base := (Strategy.buy sf s.base s.amount_per_trade d "dynamic_check" none).1 },
              (Strategy.buy sf s.base s.amount_per_trade d "dynamic_check" none).2)
          else (s, none))) ∧
      (t < 0 →
        DynamicBuyStrategy.check_and_do sf s d =
          (if c ≤ (1 + t) * r then
            ({ s with base := (Strategy.buy sf s.base s.amount_per_trade d "dynamic_check" none).1 },
              (Strategy.buy sf s.base s.amount_per_trade d "dynamic_check" none).2)
          else (s, none)))) ∧
    (∀ s : DynSellState,
      s.threshold = .pfloat t →
      s.base.start.key ≤ d.key → d.key < s.base.endDate.key →
      sf.get_price_in d = some c →
      subtract_interval d s.trigger_lookback = .ok lb →
      sf.get_last_valid_price lb = some r →
      (0 < t →
        DynamicSellStrategy.check_and_do sf s d =
          (if c ≥ (1 + t) * r then
            ({ s with base := (Strategy.sell sf s.base s.amount_per_trade d "dynamic_check" none).1 },
              (Strategy.sell sf s.base s.amount_per_trade d "dynamic_check" none).2)
          else (s, none))) ∧
      (t < 0 →
        DynamicSellStrategy.check_and_do sf s d =
          (if c ≤ (1 + t) * r then
            ({ s with base := (Strategy.sell sf s.base s.amount_per_trade d "dynamic_check" none).1 },
              (Strategy.sell sf s.base s.amount_per_trade d "dynamic_check" none).2)
          else (s, none)))) := by
  constructor
  · rintro ⟨sb, sth, samt, slbk⟩ hth hstart hend hc hsub hr
    dsimp only at hth hstart hend hsub ⊢
    subst hth
    constructor
    · intro ht
      simp only [DynamicBuyStrategy.check_and_do, hsub, hc, hr]
      rw [if_pos ⟨hstart, hend⟩, if_pos ht]
      by_cases hcge : c ≥ (1 + t) * r
      · rw [if_pos hcge, if_pos hcge]
        exact dynBuy_wrap sb (.pfloat t) samt slbk d
          (Strategy.buy sf sb samt d "dynamic_check" none) hend
      · rw [if_neg hcge, if_neg hcge]
        exact dynBuy_wrap sb (.pfloat t) samt slbk d (sb, none) hend
    · intro ht
      simp only [DynamicBuyStrategy.check_and_do, hsub, hc, hr]
      rw [if_pos ⟨hstart, hend⟩, if_neg (by linarith : ¬ t > 0), if_pos ht]
      by_cases hcle : c ≤ (1 + t) * r
      · rw [if_pos hcle, if_pos hcle]
        exact dynBuy_wrap sb (.pfloat t) samt slbk d
          (Strategy.buy sf sb samt d "dynamic_check" none) hend
      · rw [if_neg hcle, if_neg hcle]
        exact dynBuy_wrap sb (.pfloat t) samt slbk d (sb, none) hend
  · rintro ⟨sb, sth, samt, slbk⟩ hth hstart hend hc hsub hr
    dsimp only at hth hstart hend hsub ⊢
    subst hth
    constructor
    · intro ht
      simp only [DynamicSellStrategy.check_and_do, hsub, hc, hr]
      rw [if_pos ⟨hstart, hend⟩, if_pos ht]
      by_cases hcge : c ≥ (1 + t) * r
      · rw [if_pos hcge, if_pos hcge]
        exact dynSell_wrap sb (.pfloat t) samt slbk d
          (Strategy.sell sf sb samt d "dynamic_check" none) hend
      · rw [if_neg hcge, if_neg hcge]
        exact dynSell_wrap sb (.pfloat t) samt slbk d (sb, none) hend
    · intro ht
      simp only [DynamicSellStrategy.check_and_do, hsub, hc, hr]
      rw [if_pos ⟨hstart, hend⟩, if_neg (by linarith : ¬ t > 0), if_pos ht]
      by_cases hcle : c ≤ (1 + t) * r
      · rw [if_pos hcle, if_pos hcle]
        exact dynSell_wrap sb (.pfloat t) samt slbk d
          (Strategy.sell sf sb samt d "dynamic_check" none) hend
      · rw [if_neg hcle, if_neg hcle]
        exact dynSell_wrap sb (.pfloat t) samt slbk d (sb, none) hend

/-- Concrete two-day frame for the C3 witness: 100 then 112 (a 12% jump). -/
def sfC3 : StockFrame := ⟨[(⟨2024, 1, 10⟩, 100), (⟨2024, 1, 11⟩, 112)]⟩

def dbC3 : DynBuyState :=
  { base :=
      { name := "db", ticker := "T", start := ⟨2024, 1, 1⟩, endDate := ⟨2024, 6, 30⟩,
        initial_capital := 1000, fiat := 1000, stock := 0, profits := none,
        operations := [], closed := false, manual_orders := [],
        sizing_type := "static", closeTrigger := none },
    threshold := .pfloat (1/10), amount_per_trade := 50,
    trigger_lookback := "1 day" }

def dsC3 : DynSellState :=
  { base :=
      { name := "ds", ticker := "T", start := ⟨2024, 1, 1⟩, endDate := ⟨2024, 6, 30⟩,
        initial_capital := 1000, fiat := 0, stock := 10, profits := none,
        operations := [], closed := false, manual_orders := [],
        sizing_type := "static", closeTrigger := none },
    threshold := .pfloat (1/10), amount_per_trade := 50,
    trigger_lookback := "1 day" }

/-- Instantiation of `C3_dynamic_threshold_triggers` at a +10% breakout
threshold on a day showing a 12% rise over the 1-day lookback. -/
theorem C3_dynamic_threshold_triggers_witness :
    (DynamicBuyStrategy.check_and_do sfC3 dbC3 ⟨2024, 1, 11⟩ =
      (if (112 : ℚ) ≥ (1 + 1/10) * 100 then
        ({ dbC3 with base := (Strategy.buy sfC3 dbC3.base 50 ⟨2024, 1, 11⟩ "dynamic_check" none).1 },
          (Strategy.buy sfC3 dbC3.base 50 ⟨2024, 1, 11⟩ "dynamic_check" none).2)
      else (dbC3, none))) ∧
    (DynamicSellStrategy.check_and_do sfC3 dsC3 ⟨2024, 1, 11⟩ =
      (if (112 : ℚ) ≥ (1 + 1/10) * 100 then
        ({ dsC3 with base := (Strategy.sell sfC3 dsC3.base 50 ⟨2024, 1, 11⟩ "dynamic_check" none).1 },
          (Strategy.sell sfC3 dsC3.base 50 ⟨2024, 1, 11⟩ "dynamic_check" none).2)
      else (dsC3, none))) :=
  ⟨((C3_dynamic_threshold_triggers sfC3 ⟨2024, 1, 11⟩ ⟨2024, 1, 10⟩ 112 100 (1/10)).1
      dbC3 rfl (by decide) (by decide) (by decide) (by decide) (by decide)).1 (by norm_num),
   ((C3_dynamic_threshold_triggers sfC3 ⟨2024, 1, 11⟩ ⟨2024, 1, 10⟩ 112 100 (1/10)).2
      dsC3 rfl (by decide) (by decide) (by decide) (by decide) (by decide)).1 (by norm_num)⟩

/-! ## Bounded strategy (`src/bounded.py`) -/

/-- State of a `BoundedStrategy`: the base strategy state plus the
absolute stop-loss / take-profit levels, the optional holding period,
and the captured entry price. -/
structure BState where
  base : StratState
  stop_loss : ℚ
  take_profit : ℚ
  max_holding_period : Option String
  entry_price : ℚ
deriving DecidableEq, Repr

namespace BoundedStrategy

/-- `BoundedStrategy.__init__`: base construction (static sizing, no
manual orders), start-date advance to the next index date when absent,
immediate `buy_all` entry, entry-price capture (`TypeError` if no price
is resolvable, as the Python arithmetic on `None` would raise), and
absolute SL/TP levels from the `%`-or-`$` inputs. -/
def mk (sf : StockFrame) (ticker : String) (start endDate : Date)
    (capital : ℚ) (stop_loss take_profit : ℚ) (sl_type tp_type : String)
    (max_holding_period : Option String) (name : String) : Except Exc BState :=
  match Strategy.mk ticker start endDate capital "static" [] name with
  | .error e => .error e
  | .ok s0 =>
    let dates := sf.dates
    let start' := if start ∈ dates then start
      else match dates.filter (fun d => start.key ≤ d.key) with
        | [] => start
        | d :: _ => d
    let s1 := { s0 with start := start' }
    let s2 := (Strategy.buy_all sf s1 start' "initial_entry").1
    match Strategy.resolvePrice sf start' with
    | none => .error .typeError
    | some entry =>
      let sl := if sl_type = "%" then entry * (1 + stop_loss) else entry + stop_loss
      let tp := if tp_type = "%" then entry * (1 + take_profit) else entry + take_profit
      .ok { base := s2, stop_loss := sl, take_profit := tp,
            max_holding_period := max_holding_period, entry_price := entry }

/-- `BoundedStrategy.check_and_do`: manual orders (`super()`), then on a
present price: stop-loss first, then take-profit, then the time stop;
each closes the trade with its trigger tag and signals `StopChecking`. -/
def check_and_do (sf : StockFrame) (b : BState) (date : Date) :
    BState × Option Exc :=
  match Strategy.check_and_do sf b.base date with
  | (s1, some e) => ({ b with base := s1 }, some e)
  | (s1, none) =>
    let b1 := { b with base := s1 }
    match sf.get_price_in date with
    | none => (b1, none)
    | some c =>
      if c ≤ b.stop_loss then
        ({ b1 with base := Strategy.close_trade sf b1.base date "stop_loss" },
          some .stopChecking)
      else if c ≥ b.take_profit then
        ({ b1 with base := Strategy.close_trade sf b1.base date "take_profit" },
          some .stopChecking)
      else
        match b.max_holding_period with
        | none => (b1, none)
        | some mhp =>
          match subtract_interval date mhp with
          | .error e => (b1, some e)
          | .ok cutoff =>
            if b1.base.start.key ≤ cutoff.key then
              ({ b1 with base := Strategy.close_trade sf b1.base date "time_stop" },
                some .stopChecking)
            else (b1, none)

/-- The loop of `BoundedStrategy.execute` over the index dates:
`NotEnoughStockError` and `StopChecking` break the loop, any other
exception propagates out of `execute`. -/
def executeLoop (sf : StockFrame) : List Date → BState → BState × Option Exc
  | [], b => (b, none)
  | d :: rest, b =>
    if b.base.start.key ≤ d.key ∧ d.key ≤ b.base.endDate.key then
      match check_and_do sf b d with
      | (b', some .notEnoughStock) => (b', none)
      | (b', some .stopChecking) => (b', none)
      | (b', some e) => (b', some e)
      | (b', none) => executeLoop sf rest b'
    else executeLoop sf rest b

/-- `BoundedStrategy.execute`: run the loop, then force-close at `end`
only if the strategy is still open. -/
def execute (sf : StockFrame) (b : BState) : BState × Option Exc :=
  match executeLoop sf sf.dates b with
  | (b', some e) => (b', some e)
  | (b', none) =>
    if b'.base.closed then (b', none)
    else ({ b' with base := Strategy.close_trade sf b'.base b'.base.endDate "force_close" },
      none)

end BoundedStrategy

/-! ## Claim C6 — bounded exit priority -/

theorem boundedCheck_noop (sf : StockFrame) (b : BState) (d : Date)
    (hmanual : b.base.manual_orders = [])
    (hmhp : b.max_holding_period = none)
    (hsafe : ∀ p, sf.get_price_in d = some p → b.stop_loss < p ∧ p < b.take_profit) :
    BoundedStrategy.check_and_do sf b d = (b, none) := by
  obtain ⟨bb, bsl, btp, bmhp, bep⟩ := b
  dsimp only at hmanual hmhp hsafe
  subst hmhp
  unfold BoundedStrategy.check_and_do
  have hbase : Strategy.check_and_do sf bb d = (bb, none) := by
    unfold Strategy.check_and_do
    rw [hmanual]
    rfl
  rw [hbase]
  cases hp : sf.get_price_in d with
  | none => rfl
  | some p =>
    obtain ⟨h1, h2⟩ := hsafe p hp
    simp only
    rw [if_neg (by linarith), if_neg (by linarith)]

theorem boundedCheck_stop (sf : StockFrame) (b : BState) (d : Date) (p : ℚ)
    (hmanual : b.base.manual_orders = [])
    (hp : sf.get_price_in d = some p)
    (hsl : p ≤ b.stop_loss) :
    BoundedStrategy.check_and_do sf b d =
      ({ b with base := Strategy.close_trade sf b.base d "stop_loss" },
        some .stopChecking) := by
  unfold BoundedStrategy.check_and_do
  have hbase : Strategy.check_and_do sf b.base d = (b.base, none) := by
    unfold Strategy.check_and_do
    rw [hmanual]
    rfl
  rw [hbase, hp]
  simp only
  rw [if_pos hsl]

theorem close_trade_fields (sf : StockFrame) (s : StratState) (d : Date)
    (tr : String) (h : s.closed = false) :
    (Strategy.close_trade sf s d tr).closed = true ∧
    (Strategy.close_trade sf s d tr).closeTrigger = some tr ∧
    ∃ ops', (Strategy.close_trade sf s d tr).operations = s.operations ++ ops' ∧
      ∀ op ∈ ops', op.fecha = d := by
  unfold Strategy.close_trade
  rw [if_neg (by simp [h])]
  refine ⟨rfl, rfl, ?_⟩
  unfold Strategy.sell_all
  cases hres : Strategy.resolvePrice sf d with
  | none => exact ⟨[], by simp⟩
  | some price =>
    simp only
    by_cases hstk : s.stock > 0
    · rw [if_pos hstk]
      exact ⟨[⟨"sell", round2 (s.stock * price), s.ticker, price, true, d, tr⟩],
        rfl, by simp⟩
    · rw [if_neg hstk]
      exact ⟨[], by simp⟩

theorem executeLoop_first_stop (sf : StockFrame) :
    ∀ (dpre : List Date) (b : BState) (di : Date) (dpost : List Date) (pi : ℚ),
      b.base.manual_orders = [] →
      b.max_holding_period = none →
      (∀ d ∈ dpre, (b.base.start.key ≤ d.key ∧ d.key ≤ b.base.endDate.key) →
        ∀ p, sf.get_price_in d = some p → b.stop_loss < p ∧ p < b.take_profit) →
      b.base.start.key ≤ di.key → di.key ≤ b.base.endDate.key →
      sf.get_price_in di = some pi → pi ≤ b.stop_loss →
      BoundedStrategy.executeLoop sf (dpre ++ di :: dpost) b =
        ({ b with base := Strategy.close_trade sf b.base di "stop_loss" }, none) := by
  intro dpre
  induction dpre with
  | nil =>
    intro b di dpost pi hmanual hmhp hpre hs he hpi hsl
    simp only [List.nil_append, BoundedStrategy.executeLoop]
    rw [if_pos ⟨hs, he⟩, boundedCheck_stop sf b di pi hmanual hpi hsl]
  | cons d rest ih =>
    intro b di dpost pi hmanual hmhp hpre hs he hpi hsl
    simp only [List.cons_append, BoundedStrategy.executeLoop]
    have hrest : ∀ d' ∈ rest, (b.base.start.key ≤ d'.key ∧ d'.key ≤ b.base.endDate.key) →
        ∀ p, sf.get_price_in d' = some p → b.stop_loss < p ∧ p < b.take_profit := by
      intro d' hd' hr p hp
      exact hpre d' (List.mem_cons_of_mem d hd') hr p hp
    by_cases hr : b.base.start.key ≤ d.key ∧ d.key ≤ b.base.endDate.key
    · rw [if_pos hr,
        boundedCheck_noop sf b d hmanual hmhp (hpre d (List.mem_cons_self d rest) hr)]
      exact ih b di dpost pi hmanual hmhp hrest hs he hpi hsl
    · rw [if_neg hr]
      exact ih b di dpost pi hmanual hmhp hrest hs he hpi hsl

/-- **C6, amended.** For every `BoundedStrategy` **with no max holding
period** whose in-range price path stays strictly between the stop-loss
and the take-profit level until a date `di` whose price is `<= stopLoss`
(in particular the take-profit level is never reached first): `execute`
closes the strategy on `di` with trigger `"stop_loss"` — the stop-loss
check precedes the take-profit check — and appends no operation after
that close (every logged operation is dated at most `di`).
The restriction to an unset max holding period is forced by the
counterexample: a holding period that expires earlier closes the
strategy with `"time_stop"` before the stop-loss date. -/
theorem C6_amended_stop_loss_first (sf : StockFrame) (b : BState)
    (dpre dpost : List Date) (di : Date) (pi : ℚ)
    (hdates : sf.dates = dpre ++ di :: dpost)
    (hmanual : b.base.manual_orders = [])
    (hclosed : b.base.closed = false)
    (hmhp : b.max_holding_period = none)
    (hpre : ∀ d ∈ dpre, (b.base.start.key ≤ d.key ∧ d.key ≤ b.base.endDate.key) →
      ∀ p, sf.get_price_in d = some p → b.stop_loss < p ∧ p < b.take_profit)
    (hs : b.base.start.key ≤ di.key) (he : di.key ≤ b.base.endDate.key)
    (hpi : sf.get_price_in di = some pi) (hsl : pi ≤ b.stop_loss)
    (hops : ∀ op ∈ b.base.operations, op.fecha.key ≤ di.key) :
    (BoundedStrategy.execute sf b).2 = none ∧
    (BoundedStrategy.execute sf b).1.base.closed = true ∧
    (BoundedStrategy.execute sf b).1.base.closeTrigger = some "stop_loss" ∧
    ∀ op ∈ (BoundedStrategy.execute sf b).1.base.operations, op.fecha.key ≤ di.key := by
  have hloop := executeLoop_first_stop sf dpre b di dpost pi hmanual hmhp hpre hs he hpi hsl
  have hcf := close_trade_fields sf b.base di "stop_loss" hclosed
  have hexec : BoundedStrategy.execute sf b =
      ({ b with base := Strategy.close_trade sf b.base di "stop_loss" }, none) := by
    unfold BoundedStrategy.execute
    rw [hdates, hloop]
    simp only
    rw [if_pos hcf.1]
  rw [hexec]
  refine ⟨rfl, hcf.1, hcf.2.1, ?_⟩
  intro op hop
  simp only at hop
  obtain ⟨ops', hops', hall⟩ := hcf.2.2
  rw [hops'] at hop
  rcases List.mem_append.mp hop with hmem | hmem
  · exact hops op hmem
  · rw [hall op hmem]

/-- C6 counterexample environment: prices 100, 99, 90; the stop-loss
level 90 is reached on the third day, the take-profit 110 never. -/
def sfC6 : StockFrame :=
  ⟨[(⟨2024, 1, 1⟩, 100), (⟨2024, 1, 2⟩, 99), (⟨2024, 1, 3⟩, 90)]⟩

/-- The state `BoundedStrategy.mk` constructs over `sfC6` with absolute
SL −10 / TP +10 from entry 100 and a one-day max holding period. -/
def bC6 : BState :=
  { base :=
      { name := "b6", ticker := "T", start := ⟨2024, 1, 1⟩, endDate := ⟨2024, 1, 10⟩,
        initial_capital := 100, fiat := 0, stock := 1, profits := none,
        operations := [⟨"buy", 100, "T", 100, true, ⟨2024, 1, 1⟩, "initial_entry"⟩],
        closed := false, manual_orders := [], sizing_type := "static",
        closeTrigger := none },
    stop_loss := 90, take_profit := 110,
    max_holding_period := some "1 day", entry_price := 100 }

/-- **C6, counterexample.** This `BoundedStrategy`'s price path reaches
the stop-loss level (90 on 2024-01-03) before ever reaching the
take-profit level (no price reaches 110), yet `execute` closes it with
trigger `"time_stop"`, not `"stop_loss"`: the one-day max holding
period expires on 2024-01-02, and the time-stop branch runs before the
stop-loss date arrives. -/
theorem C6_cex_time_stop_preempts :
    BoundedStrategy.mk sfC6 "T" ⟨2024, 1, 1⟩ ⟨2024, 1, 10⟩ 100 (-10) 10 "$" "$"
      (some "1 day") "b6" = .ok bC6 ∧
    sfC6.get_price_in ⟨2024, 1, 3⟩ = some 90 ∧ (90 : ℚ) ≤ bC6.stop_loss ∧
    (∀ e ∈ sfC6.entries, e.2 < bC6.take_profit) ∧
    (BoundedStrategy.execute sfC6 bC6).1.base.closeTrigger = some "time_stop" ∧
    (some "time_stop" : Option String) ≠ some "stop_loss" := by
  refine ⟨by decide, by decide, by decide, by decide, by decide, by decide⟩

/-- C6 witness environment: prices 100 then 90, no holding period. -/
def sfC6w : StockFrame := ⟨[(⟨2024, 1, 1⟩, 100), (⟨2024, 1, 2⟩, 90)]⟩

def bC6w : BState :=
  { base :=
      { name := "b6w", ticker := "T", start := ⟨2024, 1, 1⟩, endDate := ⟨2024, 1, 10⟩,
        initial_capital := 100, fiat := 0, stock := 1, profits := none,
        operations := [⟨"buy", 100, "T", 100, true, ⟨2024, 1, 1⟩, "initial_entry"⟩],
        closed := false, manual_orders := [], sizing_type := "static",
        closeTrigger := none },
    stop_loss := 90, take_profit := 110,
    max_holding_period := none, entry_price := 100 }

/-- Instantiation of `C6_amended_stop_loss_first`: with no holding
period, the first stop-loss date (2024-01-02 at price 90) closes the
strategy with trigger `"stop_loss"` and nothing is logged after it. -/
theorem C6_amended_stop_loss_first_witness :
    (BoundedStrategy.execute sfC6w bC6w).2 = none ∧
    (BoundedStrategy.execute sfC6w bC6w).1.base.closed = true ∧
    (BoundedStrategy.execute sfC6w bC6w).1.base.closeTrigger = some "stop_loss" ∧
    ∀ op ∈ (BoundedStrategy.execute sfC6w bC6w).1.base.operations,
      op.fecha.key ≤ (⟨2024, 1, 2⟩ : Date).key :=
  C6_amended_stop_loss_first sfC6w bC6w [⟨2024, 1, 1⟩] [] ⟨2024, 1, 2⟩ 90
    (by decide) rfl rfl rfl (by decide) (by decide) (by decide) (by decide)
    (by decide) (by decide)

/-! ## Multi-bounded manager (`src/multi_bounded.py`) -/

/-- State of a `MultiBoundedStrategy`. -/
structure MBState where
  base : StratState
  initial_ref_price : Option ℚ
  target_prices : List Thresh
  amount_per_trade : ℚ
  stop_loss : ℚ
  take_profit : ℚ
  sl_type : String
  tp_type : String
  max_holding_period : Option String
  active_strategies : List BState
  finished_strategies : List BState
  triggered_targets : List Thresh
deriving DecidableEq, Repr

/-- The in-place retagging of the child's first operation
(`new_strat.operations[0].trigger = trigger_reason`). -/
def annotateFirstOp (child : BState) (reason : String) : BState :=
  { child with base := { child.base with operations :=
      match child.base.operations with
      | [] => []
      | o :: rest => { o with trigger := reason } :: rest } }

/-- Text of a target in the spawn reason string. -/
def threshChars (t : Thresh) : List Char :=
  match t with
  | .pint n => intChars n
  | .pfloat q => ratChars q
  | .ptuple a b => '(' :: ratChars a ++ ", ".data ++ ratChars b ++ [')']

namespace MultiBoundedStrategy

/-- `MultiBoundedStrategy._spawn_child`: compute the allocation from the
manager's sizing mode; below one cent, skip; with insufficient fiat,
skip; otherwise debit the (rounded) allocation from the manager **and
then** construct the `BoundedStrategy` child with it (a constructor
failure would leave the debit in place and propagate). -/
def _spawn_child (sf : StockFrame) (m : MBState) (date : Date)
    (trigger_reason : String) : MBState × Option Exc :=
  let allocation :=
    if m.base.sizing_type = "initial" then m.base.initial_capital * m.amount_per_trade
    else if m.base.sizing_type = "current" then m.base.fiat * m.amount_per_trade
    else m.amount_per_trade
  if allocation < 1/100 then (m, none)
  else if m.base.fiat ≥ allocation then
    let alloc2 := round2 allocation
    let m1 := { m with base := { m.base with fiat := round2 (m.base.fiat - alloc2) } }
    match BoundedStrategy.mk sf m.base.ticker date m.base.endDate alloc2
        m.stop_loss m.take_profit m.sl_type m.tp_type m.max_holding_period
        (m.base.name ++ "_child_" ++ formatDate date) with
    | .error e => (m1, some e)
    | .ok child =>
      ({ m1 with active_strategies :=
          m1.active_strategies ++ [annotateFirstOp child trigger_reason] }, none)
  else (m, none)

/-- Whether a static target's condition is met at the current price:
a float target strictly below the reference triggers on
`price <= target`, one strictly above on `price >= target`; a tuple on
inclusion; an `int` target matches neither `isinstance` test and never
triggers. Comparing a float target against a `None` reference would
raise `TypeError`. -/
def targetCondition (ref : Option ℚ) (current_price : ℚ) :
    Thresh → Except Exc Bool
  | .pfloat t =>
    match ref with
    | none => .error .typeError
    | some r =>
      .ok (if t < r then decide (current_price ≤ t)
        else if r < t then decide (t ≤ current_price)
        else false)
  | .ptuple a b => .ok (decide (a ≤ current_price) && decide (current_price ≤ b))
  | .pint _ => .ok false

/-- The loop of `_check_trigger` over `target_prices`: untriggered
targets whose condition holds spawn a child and are then marked
triggered (marked even when the spawn declined for lack of capital). -/
def checkTriggerLoop (sf : StockFrame) (date : Date) (current_price : ℚ) :
    List Thresh → MBState → MBState × Option Exc
  | [], m => (m, none)
  | target :: rest, m =>
    if target ∈ m.triggered_targets then
      checkTriggerLoop sf date current_price rest m
    else
      match targetCondition m.initial_ref_price current_price target with
      | .error e => (m, some e)
      | .ok false => checkTriggerLoop sf date current_price rest m
      | .ok true =>
        match _spawn_child sf m date
            (String.mk ("Static target ".data ++ threshChars target ++ "$ hit".data)) with
        | (m', some e) => (m', some e)
        | (m', none) =>
          checkTriggerLoop sf date current_price rest
            { m' with triggered_targets := m'.triggered_targets ++ [target] }

/-- `MultiBoundedStrategy._check_trigger`. -/
def _check_trigger (sf : StockFrame) (m : MBState) (date : Date) :
    MBState × Option Exc :=
  match sf.get_price_in date with
  | none => (m, none)
  | some current_price => checkTriggerLoop sf date current_price m.target_prices m

end MultiBoundedStrategy

/-! ## Claim C2 — trigger/capital atomicity in the manager -/

/-- C2 counterexample environment: one trading day at price 160,
reference price 100, a single float target 150. -/
def sfC2 : StockFrame := ⟨[(⟨2024, 1, 5⟩, 160)]⟩

/-- A manager with 5 of fiat but a 10-per-trade static allocation:
the 150 target's condition is met at price 160, capital is insufficient. -/
def mC2 : MBState :=
  { base :=
      { name := "mb", ticker := "T", start := ⟨2024, 1, 1⟩, endDate := ⟨2024, 12, 31⟩,
        initial_capital := 5, fiat := 5, stock := 0, profits := none,
        operations := [], closed := false, manual_orders := [],
        sizing_type := "static", closeTrigger := none },
    initial_ref_price := some 100, target_prices := [.pfloat 150],
    amount_per_trade := 10, stop_loss := -(1/10), take_profit := 1/10,
    sl_type := "%", tp_type := "%", max_holding_period := none,
    active_strategies := [], finished_strategies := [],
    triggered_targets := [] }

/-- **C2, counterexample.** The claim says an insufficiently funded
trigger leaves the target out of the triggered set so it may fire on a
later date. In the code, `_check_trigger` adds the target to
`triggered_targets` unconditionally after calling `_spawn_child`:
here the spawn is declined (fiat 5 < allocation 10), the manager state
and children are untouched — yet the 150 target ends up triggered and
can never fire again. -/
theorem C2_cex_target_marked_without_spawn :
    ((.pfloat 150 : Thresh) ∉ mC2.triggered_targets) ∧
    MultiBoundedStrategy._check_trigger sfC2 mC2 ⟨2024, 1, 5⟩ =
      ({ mC2 with triggered_targets := [.pfloat 150] }, none) :=
  ⟨by decide, by decide⟩

/-- **C2, amended.** For a static-sizing manager: when the per-trade
allocation (at least one cent) exceeds the current fiat, `_spawn_child`
is a complete no-op (no child, no debit, no exception); the trigger loop
then leaves the manager's base state and child lists unchanged but
still adds every condition-met target to the triggered set, so such a
target will **not** fire on a later date. When capital is sufficient,
the rounded allocation is debited from the manager before the child is
constructed, and the child (with its entry operation retagged with the
trigger reason) is appended to the active list. -/
theorem C2_amended_trigger_capital (sf : StockFrame) (date : Date) :
    (∀ (m : MBState) (reason : String),
      m.base.sizing_type = "static" → 1/100 ≤ m.amount_per_trade →
      m.base.fiat < m.amount_per_trade →
      MultiBoundedStrategy._spawn_child sf m date reason = (m, none)) ∧
    (∀ (m : MBState) (current : ℚ) (targets : List Thresh) (ref : ℚ),
      m.base.sizing_type = "static" → 1/100 ≤ m.amount_per_trade →
      m.base.fiat < m.amount_per_trade → m.initial_ref_price = some ref →
      (MultiBoundedStrategy.checkTriggerLoop sf date current targets m).2 = none ∧
      (MultiBoundedStrategy.checkTriggerLoop sf date current targets m).1.base = m.base ∧
      (MultiBoundedStrategy.checkTriggerLoop sf date current targets m).1.active_strategies
        = m.active_strategies ∧
      m.triggered_targets ⊆
        (MultiBoundedStrategy.checkTriggerLoop sf date current targets m).1.triggered_targets ∧
      (∀ t ∈ targets, MultiBoundedStrategy.targetCondition (some ref) current t = .ok true →
        t ∈ (MultiBoundedStrategy.checkTriggerLoop sf date current targets m).1.triggered_targets)) ∧
    (∀ (m : MBState) (reason : String) (child : BState),
      m.base.sizing_type = "static" → 1/100 ≤ m.amount_per_trade →
      m.amount_per_trade ≤ m.base.fiat →
      BoundedStrategy.mk sf m.base.ticker date m.base.endDate (round2 m.amount_per_trade)
        m.stop_loss m.take_profit m.sl_type m.tp_type m.max_holding_period
        (m.base.name ++ "_child_" ++ formatDate date) = .ok child →
      MultiBoundedStrategy._spawn_child sf m date reason =
        ({ m with
            base := { m.base with fiat := round2 (m.base.fiat - round2 m.amount_per_trade) },
            active_strategies := m.active_strategies ++ [annotateFirstOp child reason] },
          none)) := by
  have hspawn_noop : ∀ (m : MBState) (reason : String),
      m.base.sizing_type = "static" → 1/100 ≤ m.amount_per_trade →
      m.base.fiat < m.amount_per_trade →
      MultiBoundedStrategy._spawn_child sf m date reason = (m, none) := by
    intro m reason hsz hamt hfiat
    unfold MultiBoundedStrategy._spawn_child
    try dsimp only
    rw [hsz]
    rw [if_neg (by decide : ¬("static" = "initial")),
      if_neg (by decide : ¬("static" = "current"))]
    rw [if_neg (by linarith : ¬ m.amount_per_trade < 1/100),
      if_neg (by linarith : ¬ m.base.fiat ≥ m.amount_per_trade)]
  refine ⟨hspawn_noop, ?_, ?_⟩
  · intro m current targets ref
    induction targets generalizing m with
    | nil =>
      intro hsz hamt hfiat href
      exact ⟨rfl, rfl, rfl, fun t ht => ht, fun t ht => absurd ht (List.not_mem_nil t)⟩
    | cons target rest ih =>
      intro hsz hamt hfiat href
      unfold MultiBoundedStrategy.checkTriggerLoop
      by_cases htrig : target ∈ m.triggered_targets
      · rw [if_pos htrig]
        obtain ⟨e1, e2, e3, e4, e5⟩ := ih m hsz hamt hfiat href
        refine ⟨e1, e2, e3, e4, ?_⟩
        intro t ht hcond
        rcases List.mem_cons.mp ht with h | h
        · exact e4 (h ▸ htrig)
        · exact e5 t h hcond
      · rw [if_neg htrig, href]
        cases hcond : MultiBoundedStrategy.targetCondition (some ref) current target with
        | error e =>
          exfalso
          cases target <;> simp [MultiBoundedStrategy.targetCondition] at hcond
        | ok met =>
          cases met with
          | false =>
            obtain ⟨e1, e2, e3, e4, e5⟩ := ih m hsz hamt hfiat href
            refine ⟨e1, e2, e3, e4, ?_⟩
            intro t ht hc
            rcases List.mem_cons.mp ht with h | h
            · rw [h, hcond] at hc
              simp at hc
            · exact e5 t h hc
          | true =>
            rw [hspawn_noop m _ hsz hamt hfiat]
            have hrec := ih { m with triggered_targets := m.triggered_targets ++ [target] }
              hsz hamt hfiat href
            obtain ⟨e1, e2, e3, e4, e5⟩ := hrec
            refine ⟨e1, e2, e3, ?_, ?_⟩
            · intro t ht
              exact e4 (by simp only [List.mem_append]; exact Or.inl ht)
            · intro t ht hc
              rcases List.mem_cons.mp ht with h | h
              · subst h
                exact e4 (by simp)
              · exact e5 t h hc
  · intro m reason child hsz hamt hfiat hmk
    unfold MultiBoundedStrategy._spawn_child
    try dsimp only
    rw [hsz]
    rw [if_neg (by decide : ¬("static" = "initial")),
      if_neg (by decide : ¬("static" = "current"))]
    rw [if_neg (by linarith : ¬ m.amount_per_trade < 1/100),
      if_pos (by linarith : m.base.fiat ≥ m.amount_per_trade), hmk]

/-- The same manager as `mC2` but holding 50 of fiat (sufficient). -/
def mC2s : MBState :=
  { mC2 with base := { mC2.base with fiat := 50, initial_capital := 50 } }

/-- The child `BoundedStrategy.mk` constructs for `mC2s`'s spawn at
price 160 with 10 allocated (−10% / +10% levels from entry 160). -/
def chC2 : BState :=
  { base :=
      { name := "mb_child_2024-01-05", ticker := "T", start := ⟨2024, 1, 5⟩,
        endDate := ⟨2024, 12, 31⟩, initial_capital := 10, fiat := 0, stock := 1/16,
        profits := none,
        operations := [⟨"buy", 10, "T", 160, true, ⟨2024, 1, 5⟩, "initial_entry"⟩],
        closed := false, manual_orders := [], sizing_type := "static",
        closeTrigger := none },
    stop_loss := 144, take_profit := 176,
    max_holding_period := none, entry_price := 160 }

/-- Instantiation of all three parts of `C2_amended_trigger_capital`. -/
theorem C2_amended_trigger_capital_witness :
    MultiBoundedStrategy._spawn_child sfC2 mC2 ⟨2024, 1, 5⟩ "r" = (mC2, none) ∧
    ((.pfloat 150 : Thresh) ∈
      (MultiBoundedStrategy.checkTriggerLoop sfC2 ⟨2024, 1, 5⟩ 160 [.pfloat 150] mC2).1.triggered_targets) ∧
    MultiBoundedStrategy._spawn_child sfC2 mC2s ⟨2024, 1, 5⟩ "funded" =
      ({ mC2s with
          base := { mC2s.base with fiat := round2 (mC2s.base.fiat - round2 mC2s.amount_per_trade) },
          active_strategies := mC2s.active_strategies ++ [annotateFirstOp chC2 "funded"] },
        none) :=
  ⟨(C2_amended_trigger_capital sfC2 ⟨2024, 1, 5⟩).1 mC2 "r" rfl (by decide) (by decide),
   ((C2_amended_trigger_capital sfC2 ⟨2024, 1, 5⟩).2.1 mC2 160 [.pfloat 150] 100
      rfl (by decide) (by decide) rfl).2.2.2.2 (.pfloat 150) (by simp) (by decide),
   (C2_amended_trigger_capital sfC2 ⟨2024, 1, 5⟩).2.2 mC2s "funded" chC2
      rfl (by decide) (by decide) (by decide)⟩

/-! ## Claim C10 — integer thresholds never trigger -/

/-- **C10.** A threshold supplied as a Python `int` (e.g. `150` instead
of `150.0`) is neither a `float` nor a `tuple`, so the trigger dispatch
never fires: `BuyStrategy.check_and_do` does nothing beyond the base
manual-order handling (here: none scheduled) and the end-of-range stop
signal; `SellStrategy.check_and_do` (which runs no manual orders at
all) leaves the state exactly unchanged; and the manager's trigger loop
over `int`-only targets spawns no child and changes nothing — not even
the triggered set. -/
theorem C10_int_thresholds_inert (sf : StockFrame) (d : Date) :
    (∀ (bs : BuyState) (n : ℤ), bs.threshold = .pint n →
      bs.base.manual_orders = [] →
      BuyStrategy.check_and_do sf bs d =
        (bs, if bs.base.endDate.key ≤ d.key then some .stopChecking else none)) ∧
    (∀ (ss : SellState) (n : ℤ), ss.threshold = .pint n →
      SellStrategy.check_and_do sf ss d =
        (ss, if ss.base.endDate.key ≤ d.key then some .stopChecking else none)) ∧
    (∀ (m : MBState) (current : ℚ) (targets : List Thresh),
      (∀ t ∈ targets, ∃ n : ℤ, t = .pint n) →
      MultiBoundedStrategy.checkTriggerLoop sf d current targets m = (m, none)) := by
  refine ⟨?_, ?_, ?_⟩
  · rintro ⟨bb, bth, bamt⟩ n hth hmanual
    dsimp only at hth hmanual ⊢
    subst hth
    unfold BuyStrategy.check_and_do
    have hbase : Strategy.check_and_do sf bb d = (bb, none) := by
      unfold Strategy.check_and_do
      rw [hmanual]
      rfl
    rw [hbase]
    dsimp only
    by_cases hc : bb.endDate.key ≤ d.key
    · rw [if_pos hc, if_pos hc]
    · rw [if_neg hc, if_neg hc]
  · rintro ⟨sb, sth, samt⟩ n hth
    dsimp only at hth ⊢
    subst hth
    unfold SellStrategy.check_and_do
    dsimp only
    by_cases hc : sb.endDate.key ≤ d.key
    · rw [if_pos hc, if_pos hc]
    · rw [if_neg hc, if_neg hc]
  · intro m current targets
    induction targets with
    | nil => intro hall; rfl
    | cons t rest ih =>
      intro hall
      obtain ⟨n, hn⟩ := hall t (List.mem_cons_self t rest)
      subst hn
      unfold MultiBoundedStrategy.checkTriggerLoop
      by_cases htrig : (.pint n : Thresh) ∈ m.triggered_targets
      · rw [if_pos htrig]
        exact ih (fun t ht => hall t (List.mem_cons_of_mem _ ht))
      · rw [if_neg htrig]
        exact ih (fun t ht => hall t (List.mem_cons_of_mem _ ht))

/-- A static buy strategy whose threshold is the integer 150. -/
def bsC10 : BuyState :=
  { base := sC7, threshold := .pint 150, amount_per_trade := 20 }

/-- A static sell strategy whose threshold is the integer 150. -/
def ssC10 : SellState :=
  { base := { sC7 with stock := 1, fiat := 0 }, threshold := .pint 150,
    amount_per_trade := 20 }

/-- Instantiation of `C10_int_thresholds_inert` on a date inside the
range (so not even the stop signal fires). -/
theorem C10_int_thresholds_inert_witness :
    BuyStrategy.check_and_do sfC7 bsC10 ⟨2024, 1, 2⟩ =
      (bsC10, if bsC10.base.endDate.key ≤ (⟨2024, 1, 2⟩ : Date).key
        then some .stopChecking else none) ∧
    SellStrategy.check_and_do sfC7 ssC10 ⟨2024, 1, 2⟩ =
      (ssC10, if ssC10.base.endDate.key ≤ (⟨2024, 1, 2⟩ : Date).key
        then some .stopChecking else none) ∧
    MultiBoundedStrategy.checkTriggerLoop sfC7 ⟨2024, 1, 2⟩ 150 [.pint 150] mC2 =
      (mC2, none) :=
  ⟨(C10_int_thresholds_inert sfC7 ⟨2024, 1, 2⟩).1 bsC10 150 rfl rfl,
   (C10_int_thresholds_inert sfC7 ⟨2024, 1, 2⟩).2.1 ssC10 150 rfl,
   (C10_int_thresholds_inert sfC7 ⟨2024, 1, 2⟩).2.2 mC2 150 [.pint 150]
     (by intro t ht; simp at ht; exact ⟨150, ht⟩)⟩

/-! ## The composite (`src/multi_strategy.py`) and `Strategy.__add__`

A composite's children may in principle be composites themselves (the
type permits nesting), which is what the flattening rule of `__add__`
is about. `MultiState` mirrors the attributes `MultiStrategy.__init__`
sets — note it sets **no** `operations` attribute. -/

mutual
inductive StratObj where
  | leaf (s : StratState)
  | multi (m : MultiState)
inductive MultiState where
  | mk (active_strategies finished_strategies : List StratObj)
       (start endDate : Date) (fiat initial_capital profits : ℚ)
       (closed : Bool) (name : String)
end

def MultiState.active : MultiState → List StratObj
  | .mk a _ _ _ _ _ _ _ _ => a

def MultiState.finished : MultiState → List StratObj
  | .mk _ f _ _ _ _ _ _ _ => f

def MultiState.start : MultiState → Date
  | .mk _ _ s _ _ _ _ _ _ => s

def MultiState.endDate : MultiState → Date
  | .mk _ _ _ e _ _ _ _ _ => e

def MultiState.fiat : MultiState → ℚ
  | .mk _ _ _ _ f _ _ _ _ => f

def MultiState.initial_capital : MultiState → ℚ
  | .mk _ _ _ _ _ c _ _ _ => c

def MultiState.profits : MultiState → ℚ
  | .mk _ _ _ _ _ _ p _ _ => p

def MultiState.closed : MultiState → Bool
  | .mk _ _ _ _ _ _ _ c _ => c

def MultiState.name : MultiState → String
  | .mk _ _ _ _ _ _ _ _ n => n

/-- A child's `.start` attribute. -/
def objStart : StratObj → Date
  | .leaf s => s.start
  | .multi m => m.start

/-- A child's `.end` attribute. -/
def objEnd : StratObj → Date
  | .leaf s => s.endDate
  | .multi m => m.endDate

/-- A child's `.fiat` attribute. -/
def objFiat : StratObj → ℚ
  | .leaf s => s.fiat
  | .multi m => m.fiat

/-- A child's `.initial_capital` attribute. -/
def objCapital : StratObj → ℚ
  | .leaf s => s.initial_capital
  | .multi m => m.initial_capital

/-- A child's `.closed` attribute. -/
def objClosed : StratObj → Bool
  | .leaf s => s.closed
  | .multi m => m.closed

/-- A child's `.operations` attribute: a plain strategy has one;
`MultiStrategy.__init__` sets none, so the lookup on a composite child
raises `AttributeError`. -/
def objOperations : StratObj → Except Exc (List Operation)
  | .leaf s => .ok s.operations
  | .multi _ => .error .attributeError

/-- A child that is not itself a composite. -/
def objIsLeaf : StratObj → Prop
  | .leaf _ => True
  | .multi _ => False

/-- Python `min` / `max` over the children's start/end dates
(`min` keeps the first minimal element, `max` the first maximal). -/
def dateMinList (d : Date) (ds : List Date) : Date :=
  ds.foldl (fun acc x => if x.key < acc.key then x else acc) d

def dateMaxList (d : Date) (ds : List Date) : Date :=
  ds.foldl (fun acc x => if acc.key < x.key then x else acc) d

namespace MultiStrategy

/-- `MultiStrategy.__init__`: `min`/`max` of the children's ranges
(`ValueError` on an empty list), summed initial capital, zero fiat,
zero profits, open. -/
def mkM (strats : List StratObj) : Except Exc MultiState :=
  match strats with
  | [] => .error .valueError
  | s0 :: rest =>
    .ok (.mk strats []
      (dateMinList (objStart s0) (rest.map objStart))
      (dateMaxList (objEnd s0) (rest.map objEnd))
      0 ((strats.map objCapital).sum) 0 false "undefined_multi_strategy")

end MultiStrategy

/-- `get_sub_strats` inside `Strategy.__add__`: a `MultiStrategy`
contributes its active children, anything else contributes itself. -/
def get_sub_strats : StratObj → List StratObj
  | .leaf s => [.leaf s]
  | .multi m => m.active

/-- `Strategy.__add__` / `MultiStrategy.__add__`: flatten both operands
and build a fresh composite. -/
def Strategy.add (a b : StratObj) : Except Exc MultiState :=
  MultiStrategy.mkM (get_sub_strats a ++ get_sub_strats b)

mutual

/-- `close_trade` dispatched on a child: the base `Strategy.close_trade`
for plain strategies, `MultiStrategy.close_trade` for composites. -/
def closeObj (sf : StockFrame) (date : Date) (trigger : String) :
    StratObj → StratObj
  | .leaf s => .leaf (Strategy.close_trade sf s date trigger)
  | .multi m => .multi (closeMulti sf date trigger m)

/-- The loop of `MultiStrategy.close_trade` over `active_strategies`:
each still-open child is closed, its fiat reclaimed, and it is moved to
the finished list; an already-closed active child is skipped (and hence
dropped when the active list is cleared). Returns the children to
append to `finished` and the reclaimed fiat. -/
def closeList (sf : StockFrame) (date : Date) (trigger : String) :
    List StratObj → List StratObj × ℚ
  | [] => ([], 0)
  | c :: rest =>
    if objClosed c then closeList sf date trigger rest
    else
      let c' := closeObj sf date trigger c
      let r := closeList sf date trigger rest
      (c' :: r.1, objFiat c' + r.2)

/-- `MultiStrategy.close_trade`. -/
def closeMulti (sf : StockFrame) (date : Date) (trigger : String) :
    MultiState → MultiState
  | .mk active finished start endDate fiat initial_capital _ _ name =>
    let r := closeList sf date trigger active
    .mk [] (finished ++ r.1) start endDate (fiat + r.2)
      initial_capital (round2 (fiat + r.2 - initial_capital)) true name

end

/-- `MultiStrategy.get_profit`. -/
def MultiStrategy.get_profit (m : MultiState) : Except Exc ℚ :=
  if m.closed then .ok m.profits else .error .tradeNotClosed

/-! ## Claim C9 — composition via `+` -/

theorem mkM_cons (s0 : StratObj) (rest : List StratObj) :
    MultiStrategy.mkM (s0 :: rest) =
      .ok (.mk (s0 :: rest) []
        (dateMinList (objStart s0) (rest.map objStart))
        (dateMaxList (objEnd s0) (rest.map objEnd))
        0 (((s0 :: rest).map objCapital).sum) 0 false
        "undefined_multi_strategy") := rfl

theorem closeList_all_open (sf : StockFrame) (d : Date) (tr : String) :
    ∀ cs : List StratObj, (∀ c ∈ cs, objClosed c = false) →
      closeList sf d tr cs =
        (cs.map (closeObj sf d tr),
         (cs.map (fun c => objFiat (closeObj sf d tr c))).sum) := by
  intro cs
  induction cs with
  | nil => intro _; rfl
  | cons c rest ih =>
    intro hall
    have hc : objClosed c = false := hall c (List.mem_cons_self c rest)
    have hrest := ih (fun x hx => hall x (List.mem_cons_of_mem c hx))
    unfold closeList
    rw [hc]
    simp only [Bool.false_eq_true, if_false, hrest, List.map_cons, List.sum_cons]

/-- **C9, amended.** `a + b` builds a fresh `MultiStrategy` whose
children are the **active** children of the operands (flattened, so
composites are never nested when the operands are flat), whose
`initialCapital` is the sum of those children's initial capitals — this
equals the sum of the operands' initial capitals exactly when each
operand's capital still equals the sum over its contributed children
(true for leaves and for freshly built composites; false once a
composite has finished children, see the counterexample). And for a
composite whose fiat equals the sum of its finished children's fiat
(true from construction onward) and whose active children are all still
open, `close_trade` closes every child, after which the composite's
fiat equals the sum of all its children's fiat and `get_profit()`
returns `round2(fiat - initialCapital)` — exactly `fiat -
initialCapital` when both are whole cents. -/
theorem C9_amended_composite (sf : StockFrame) (d : Date) (tr : String) :
    (∀ (a b : StratObj) (r : MultiState),
      Strategy.add a b = .ok r →
      r.active = get_sub_strats a ++ get_sub_strats b ∧
      r.finished = [] ∧
      r.initial_capital = ((get_sub_strats a ++ get_sub_strats b).map objCapital).sum ∧
      ((∀ c ∈ get_sub_strats a, objIsLeaf c) → (∀ c ∈ get_sub_strats b, objIsLeaf c) →
        ∀ c ∈ r.active, objIsLeaf c) ∧
      (objCapital a = ((get_sub_strats a).map objCapital).sum →
        objCapital b = ((get_sub_strats b).map objCapital).sum →
        r.initial_capital = objCapital a + objCapital b)) ∧
    (∀ m : MultiState,
      m.fiat = (m.finished.map objFiat).sum →
      (∀ c ∈ m.active, objClosed c = false) →
      (closeMulti sf d tr m).closed = true ∧
      (closeMulti sf d tr m).active = [] ∧
      (closeMulti sf d tr m).fiat =
        (((closeMulti sf d tr m).active ++ (closeMulti sf d tr m).finished).map objFiat).sum ∧
      MultiStrategy.get_profit (closeMulti sf d tr m) =
        .ok (round2 ((closeMulti sf d tr m).fiat - m.initial_capital)) ∧
      (CentMul (closeMulti sf d tr m).fiat → CentMul m.initial_capital →
        MultiStrategy.get_profit (closeMulti sf d tr m) =
          .ok ((closeMulti sf d tr m).fiat - m.initial_capital))) := by
  constructor
  · intro a b r hadd
    unfold Strategy.add at hadd
    cases hcomb : get_sub_strats a ++ get_sub_strats b with
    | nil => rw [hcomb] at hadd; cases hadd
    | cons s0 rest =>
      rw [hcomb, mkM_cons] at hadd
      injection hadd with hr
      subst hr
      refine ⟨rfl, rfl, rfl, ?_, ?_⟩
      · intro ha hb c hc
        have hc' : c ∈ get_sub_strats a ++ get_sub_strats b := by
          rw [hcomb]; exact hc
        rcases List.mem_append.mp hc' with h | h
        · exact ha c h
        · exact hb c h
      · intro hA hB
        have h1 : (List.map objCapital (s0 :: rest)).sum =
            objCapital a + objCapital b := by
          rw [← hcomb, List.map_append, List.sum_append, ← hA, ← hB]
        exact h1
  · intro m hfiat hopen
    cases m with
    | mk ac fin st en fi cap pr cl nm =>
      simp only [MultiState.fiat, MultiState.finished, MultiState.active] at hfiat hopen
      have hcl := closeList_all_open sf d tr ac hopen
      have hclose : closeMulti sf d tr (.mk ac fin st en fi cap pr cl nm) =
          .mk [] (fin ++ ac.map (closeObj sf d tr)) st en
            (fi + (ac.map (fun c => objFiat (closeObj sf d tr c))).sum)
            cap
            (round2 (fi + (ac.map (fun c => objFiat (closeObj sf d tr c))).sum - cap))
            true nm := by
        unfold closeMulti
        rw [hcl]
      rw [hclose]
      simp only [MultiState.closed, MultiState.active, MultiState.finished,
        MultiState.fiat, MultiState.initial_capital, MultiState.profits]
      refine ⟨trivial, trivial, ?_, ?_, ?_⟩
      · simp only [List.nil_append, List.map_append, List.sum_append, List.map_map, hfiat]
        rfl
      · rfl
      · intro h1 h2
        conv_rhs => rw [← round2_centMul (centMul_sub h1 h2)]
        rfl

/-- A fresh leaf strategy with capital 100. -/
def lA9 : StratState :=
  { name := "A", ticker := "T", start := ⟨2024, 1, 1⟩, endDate := ⟨2024, 2, 1⟩,
    initial_capital := 100, fiat := 100, stock := 0, profits := none,
    operations := [], closed := false, manual_orders := [],
    sizing_type := "static", closeTrigger := none }

/-- A finished leaf strategy with capital 50 (already closed). -/
def lB9 : StratState :=
  { name := "B", ticker := "T", start := ⟨2024, 1, 1⟩, endDate := ⟨2024, 2, 1⟩,
    initial_capital := 50, fiat := 50, stock := 0, profits := some 0,
    operations := [], closed := true, manual_orders := [],
    sizing_type := "static", closeTrigger := some "stop" }

/-- A fresh leaf strategy with capital 10. -/
def lC9 : StratState :=
  { name := "C", ticker := "T", start := ⟨2024, 1, 5⟩, endDate := ⟨2024, 3, 1⟩,
    initial_capital := 10, fiat := 10, stock := 0, profits := none,
    operations := [], closed := false, manual_orders := [],
    sizing_type := "static", closeTrigger := none }

/-- A composite that has already moved one child (capital 50, fiat 50
reclaimed) from active to finished: reachable by running a composite of
`lA9` and a strategy that signalled termination. -/
def mfinC9 : MultiState :=
  .mk [.leaf lA9] [.leaf lB9] ⟨2024, 1, 1⟩ ⟨2024, 2, 1⟩ 50 150 0 false
    "undefined_multi_strategy"

/-- **C9, counterexample.** Combining a composite that has a finished
child with a fresh leaf: `get_sub_strats` contributes only the
**active** children, so the new composite's `initialCapital` is
`100 + 10 = 110`, not the sum of the operands' initial capitals
`150 + 10 = 160`. -/
theorem C9_cex_add_ignores_finished :
    (Strategy.add (.multi mfinC9) (.leaf lC9)).map MultiState.initial_capital =
      .ok 110 ∧
    objCapital (.multi mfinC9) + objCapital (.leaf lC9) = 160 ∧
    (110 : ℚ) ≠ 160 :=
  ⟨by decide, by decide, by decide⟩

/-- The composite `lA9 + lC9` builds. -/
def rAdd9 : MultiState :=
  .mk [.leaf lA9, .leaf lC9] [] ⟨2024, 1, 1⟩ ⟨2024, 3, 1⟩ 0
    (([(.leaf lA9 : StratObj), .leaf lC9]).map objCapital).sum 0 false
    "undefined_multi_strategy"

/-- A composite with one open active child and one finished child whose
fiat it has reclaimed. -/
def m9 : MultiState :=
  .mk [.leaf lA9] [.leaf lB9] ⟨2024, 1, 1⟩ ⟨2024, 2, 1⟩ 50 150 0 false
    "undefined_multi_strategy"

def sfC9 : StockFrame := ⟨[(⟨2024, 1, 2⟩, 5)]⟩

/-- Instantiation of both parts of `C9_amended_composite`: the
capital-sum law on two fresh leaves, and the close-time fiat
aggregation on `m9`. -/
theorem C9_amended_composite_witness :
    (Strategy.add (.leaf lA9) (.leaf lC9) = .ok rAdd9 ∧
      rAdd9.initial_capital = objCapital (.leaf lA9) + objCapital (.leaf lC9)) ∧
    ((closeMulti sfC9 ⟨2024, 1, 20⟩ "t" m9).closed = true ∧
      (closeMulti sfC9 ⟨2024, 1, 20⟩ "t" m9).fiat =
        (((closeMulti sfC9 ⟨2024, 1, 20⟩ "t" m9).active ++
          (closeMulti sfC9 ⟨2024, 1, 20⟩ "t" m9).finished).map objFiat).sum) := by
  have hadd9 : Strategy.add (.leaf lA9) (.leaf lC9) = .ok rAdd9 := rfl
  have h1 := (C9_amended_composite sfC9 ⟨2024, 1, 20⟩ "t").1 (.leaf lA9) (.leaf lC9)
    rAdd9 hadd9
  have h2 := (C9_amended_composite sfC9 ⟨2024, 1, 20⟩ "t").2 m9 (by decide) (by decide)
  exact ⟨⟨hadd9, h1.2.2.2.2 (by decide) (by decide)⟩, h2.1, h2.2.2.1⟩

/-! ## Claim C5 — `get_all_operations` sorting bug -/

/-- The attribute lookup `x.date` performed by the sort key
`lambda x: x.date` in `get_all_operations`: `Operation.__init__` sets
`type, cash_amount, ticker, stock_price, succesful, fecha, trigger` and
no `date`, so the lookup raises `AttributeError`. -/
def Operation.attr_date (_ : Operation) : Except Exc Date :=
  .error .attributeError

/-- Stable insertion into a key-sorted list (Python's sort is stable). -/
def insertByKey (x : Date × Operation) :
    List (Date × Operation) → List (Date × Operation)
  | [] => [x]
  | y :: ys =>
    if x.1.key < y.1.key then x :: y :: ys
    else y :: insertByKey x ys

/-- Python `list.sort(key=lambda x: x.date)`: evaluate the key on every
element (each evaluation raises here), then sort stably by key. -/
def pySortByDate (ops : List Operation) : Except Exc (List Operation) :=
  match ops.mapM Operation.attr_date with
  | .error e => .error e
  | .ok keys =>
    .ok ((((keys.zip ops).foldl (fun acc x => insertByKey x acc) []).map
      (fun x => x.2)))

/-- `MultiStrategy.get_all_operations`: flatten the children's
operations (a composite child has no `.operations` attribute at all),
sort by the nonexistent `.date` attribute, render. -/
def MultiStrategy.get_all_operations (ms : MultiState) :
    Except Exc (List String) :=
  match (ms.active ++ ms.finished).mapM objOperations with
  | .error e => .error e
  | .ok opss =>
    match pySortByDate opss.flatten with
    | .error e => .error e
    | .ok sorted => .ok (sorted.map Operation.get_description)

/-- `MultiBoundedStrategy.get_all_operations`: same flatten-sort-render
over the bounded children's operation lists. -/
def MultiBoundedStrategy.get_all_operations (m : MBState) :
    Except Exc (List String) :=
  match pySortByDate (((m.active_strategies ++ m.finished_strategies).map
      (fun b => b.base.operations)).flatten) with
  | .error e => .error e
  | .ok sorted => .ok (sorted.map Operation.get_description)

/-- A composite holding one child with one logged operation. -/
def msC5 : MultiState :=
  .mk [.leaf bC6w.base] [] ⟨2024, 1, 1⟩ ⟨2024, 1, 10⟩ 0 100 0 false
    "undefined_multi_strategy"

/-- A multi-bounded manager holding one child with one logged operation. -/
def mbC5 : MBState := { mC2 with active_strategies := [chC2] }

/-- **C5 (code bug).** As soon as the children hold at least one
`Operation`, `get_all_operations` crashes with `AttributeError` instead
of returning the date-sorted description list: the sort key is
`lambda x: x.date`, but `Operation` stores its date in the attribute
`fecha` and has no `date` attribute. Both the `MultiStrategy` and the
`MultiBoundedStrategy` version share the bug (the empty log still
returns `[]` because the key is never evaluated). -/
theorem C5_get_all_operations_attribute_bug :
    bC6w.base.operations ≠ [] ∧
    MultiStrategy.get_all_operations msC5 = .error .attributeError ∧
    MultiBoundedStrategy.get_all_operations mbC5 = .error .attributeError ∧
    MultiStrategy.get_all_operations
      (.mk [.leaf lA9] [] ⟨2024, 1, 1⟩ ⟨2024, 2, 1⟩ 0 100 0 false "m") = .ok [] :=
  ⟨by decide, by decide, by decide, by decide⟩
